import Mathlib

/-!
Verification development for the Abrox group-lounge synthetic chat
simulation core (message-pool, synthetic-people, typing-engine,
stimulation-engine).  The JavaScript sources are embedded shallowly:

* JavaScript 32-bit unsigned arithmetic (`x >>> 0`, `<<`, `>>>`, `^`) is
  modelled on `Nat` with explicit `% 4294967296`.  The signed views taken
  by some sources (`x ^= x << 13` without an intervening `>>> 0`) produce
  the same 32-bit pattern as the unsigned ops used here, so a single
  unsigned model covers both RNG constructors.
* JavaScript `Number` arithmetic is modelled on `ℚ`.  Decimal literals
  such as `0.42` are modelled as the exact rationals they denote.
* `Date.now()` is passed in explicitly as an integer parameter `now`
  (milliseconds); `localStorage`-backed state is passed as explicit
  values; the ambient `window.SyntheticPeople.people` pool is an explicit
  list parameter.
-/

namespace Abrox

set_option allowUnsafeReducibility true
set_option maxRecDepth 2000

/- The embedding evaluates concrete runs of the generators by kernel
reduction (`decide`); the rational arithmetic primitives must therefore be
unfoldable. -/
attribute [semireducible] Rat.add Rat.mul Rat.inv Rat.sub Rat.ofScientific

/-- `clamp(v, a, b) = Math.max(a, Math.min(b, v))` — the clamp helper shared
by message-pool, synthetic-people and typing-engine. -/
def clampQ (v a b : ℚ) : ℚ := max a (min b v)

/-- The same clamp on naturals (used where the JS arguments are integers). -/
def clampNat (v a b : ℕ) : ℕ := max a (min b v)

/-- `Math.floor` on a non-negative JS number, as a natural. -/
def jsFloorNat (q : ℚ) : ℕ := (⌊q⌋).toNat

/-- `Math.round` (round half towards `+∞`, i.e. `⌊x + 1/2⌋`). -/
def jsRound (q : ℚ) : ℤ := ⌊q + 1/2⌋

/-- `2 ^ 32`, the modulus of all JS `>>> 0` coercions. -/
def U32 : ℕ := 4294967296

/-- `x ^= x << 13; x >>>= 0` (and `x ^= x << 5` with `32` in place of
`8192`): xor with a 32-bit left shift. -/
def xorshiftShl (m x : ℕ) : ℕ := (x ^^^ (x * m % U32)) % U32

/-- `x ^= x >>> 17; x >>>= 0`: xor with a logical right shift by 17. -/
def xorshiftShr17 (x : ℕ) : ℕ := (x ^^^ (x / 131072)) % U32

/-- One step of the 32-bit xorshift shared by every RNG in the repository:
`x ^= x << 13; x >>>= 0; x ^= x >>> 17; x >>>= 0; x ^= x << 5; x >>>= 0`. -/
def xorshift32Step (x : ℕ) : ℕ :=
  xorshiftShl 32 (xorshiftShr17 (xorshiftShl 8192 x))

/-- message-pool / synthetic-people constructor seed line:
`let x = (seed >>> 0) || 0x811c9dc5` — seed `0` is remapped to a fixed
non-zero constant. -/
def xorshift32Init (seed : ℕ) : ℕ :=
  if seed % U32 = 0 then 0x811c9dc5 else seed % U32

/-- typing-engine / people-store / message-bank constructor seed line:
`let x = seed >>> 0 || (Math.floor(Math.random() * 2 ** 31) >>> 0)` —
seed `0` is replaced by a fresh `Math.random()` fallback, passed here
explicitly as `fallback`. -/
def makeRngInit (seed fallback : ℕ) : ℕ :=
  if seed % U32 = 0 then fallback % U32 else seed % U32

/-- One call of an RNG closure: advance the state and output
`(x >>> 0) / 2^32 ∈ [0, 1)`. -/
def rngNext (s : ℕ) : ℕ × ℚ :=
  let s1 := xorshift32Step s
  (s1, (s1 : ℚ) / (U32 : ℚ))

/-! ## message-pool: vocabulary, defaults and the deterministic generator -/

def TOKENS : List String :=
  ["BTC", "ETH", "SOL", "LTC", "DOGE", "XRP", "ADA", "BNB", "MATIC", "AVAX",
   "DOT", "LINK", "OP", "ARB"]

def INDICATORS : List String :=
  ["RSI", "MACD", "EMA50", "EMA200", "SMA20", "OBV", "VWAP", "Volume"]

def TIMEFRAMES : List String := ["1m", "5m", "15m", "1h", "4h", "1d", "1w"]

def ORDERS : List String := ["buy", "sell", "long", "short", "swing", "scalp", "hodl"]

def COMMON_PHRASES : List String :=
  ["Anyone watching {token}?",
   "Set a stop at {stop}.",
   "TP at {tp}.",
   "Looks like accumulation to me.",
   "This looks like a retrace — waiting for confirmation.",
   "FOMO incoming 🚀",
   "Diamond hands.",
   "Paper hands everywhere 😅",
   "Watching the order book — strong sell wall.",
   "Good time to DCA?",
   "That was a nasty wick on the 1h.",
   "Whale alert on {token} 🐳",
   "IIRC that indicator signals reversal.",
   "Use limit orders if you care about price.",
   "The bot produced a noisy signal today.",
   "Anyone sharing indicators? DM me.",
   "This feels like a fakeout.",
   "LFG to the moon 🚀💎",
   "That TA lines up with weekly resistance.",
   "Small position only — too risky for me."]

def ATTACH_TITLES : List String :=
  ["chart.png", "screenshot.jpg", "trade.mp4", "report.pdf", "indicator.png"]

def MSG_EMOJI : List String :=
  ["🚀", "💎", "🔥", "📉", "📈", "🤖", "🔒", "⚠️", "✅", "❌", "🐳"]

def CHATTY_WORDS : List String :=
  ["check", "signal", "buy", "sell", "watch", "nice", "yikes", "rekt", "hold",
   "wait", "now", "looks"]

def QUESTION_TEMPLATES : List String :=
  ["Anyone got thoughts on {token}?", "Who else is holding {token}?",
   "Is {indicator} bearish on {timeframe}?", "Just saw a whale move on {token}"]

/-- Generation options after the JS falsy-chain resolution
`opts.x || this.meta.x || DEFAULT.x` (all defaults are non-zero, so the
resolved values are what every read site sees).  `minWords`/`maxWords` are
always read from `this.meta`. -/
structure GenOpts where
  seedBase : ℕ
  size : ℕ
  spanDays : ℚ
  minWords : ℕ
  maxWords : ℕ
  replyFraction : ℚ
  attachmentFraction : ℚ
  pinnedFraction : ℚ
deriving DecidableEq, Repr

/-- message-pool `DEFAULT`. -/
def defaultGenOpts : GenOpts :=
  { seedBase := 4000, size := 100000, spanDays := 730, minWords := 4,
    maxWords := 28, replyFraction := 6/100, attachmentFraction := 4/100,
    pinnedFraction := 8/10000 }

/-- A `SyntheticPeople` pool entry as read by the message generator. -/
structure Sender where
  name : String
  displayName : String
  role : String
  avatar : String
deriving DecidableEq, Repr

structure MsgAttachment where
  filename : String
  url : String
deriving DecidableEq, Repr

/-- The generated message record. -/
structure Msg where
  id : String
  name : String
  displayName : String
  role : String
  avatar : String
  text : String
  out : Bool
  time : ℤ
  replyTo : Option String
  pinned : Bool
  attachment : Option MsgAttachment
deriving DecidableEq, Repr

/-- `a || b` on JS strings (empty string is falsy). -/
def strOr (a b : String) : String := if a = "" then b else a

/-- `pickFrom(arr, rnd)`: one RNG draw, element at
`Math.floor(rnd() * arr.length)`.  All call sites pass non-empty literal
vocabularies, so the JS empty-array `null` branch never fires and `dflt`
is never reached. -/
def pickFrom (arr : List String) (dflt : String) (s : ℕ) : String × ℕ :=
  let p := rngNext s
  ((arr.get? (jsFloorNat (p.2 * arr.length))).getD dflt, p.1)

/-- `token.charCodeAt(0)` (the vocabulary is ASCII, so the code unit is the
code point). -/
def charCode0 (t : String) : ℕ := (t.data.headD 'A').toNat

/-- `randPriceForToken(token, rnd)`. -/
def randPriceForToken (token : String) (s : ℕ) : ℚ × ℕ :=
  let base0 : ℚ := 100 * (1 + ((charCode0 token % 7 : ℕ) : ℚ))
  let base : ℚ :=
    if token = "BTC" then 30000
    else if token = "ETH" then 2000
    else if token = "DOGE" then 8/100
    else base0
  let p := rngNext s
  let jitter := (p.2 - 1/2) * base * (12/100)
  (max (1/10000) (base + jitter), p.1)

/-- Decimal rendering of a cents amount.  `Number.prototype.toLocaleString`
(used by `fmtPrice`) is modelled as plain decimal rendering without locale
digit grouping; no claim depends on the exact digit bytes, only on the
rendering being a deterministic function of the rounded value. -/
def renderCents (c : ℤ) : String :=
  let sign := if c < 0 then "-" else ""
  let n := c.natAbs
  let ip := n / 100
  let fp := n % 100
  sign ++ toString ip ++
    (if fp = 0 then ""
     else if fp % 10 = 0 then "." ++ toString (fp / 10)
     else "." ++ (if fp < 10 then "0" ++ toString fp else toString fp))

/-- `fmtPrice(v) = (Math.round(v*100)/100).toLocaleString()`. -/
def fmtPrice (v : ℚ) : String := renderCents (jsRound (v * 100))

/-- `fmtPercent(p) = (Math.round(p*100)/100).toFixed(2) + '%'`. -/
def fmtPercent (p : ℚ) : String :=
  let c := jsRound (p * 100)
  let sign := if c < 0 then "-" else ""
  let n := c.natAbs
  sign ++ toString (n / 100) ++ "." ++
    (if n % 100 < 10 then "0" else "") ++ toString (n % 100) ++ "%"

/-- Replace every (non-overlapping, left-to-right) occurrence of `pat` in
the character list, with a step-count fuel for structural recursion; the
fuel is instantiated with the list length, which bounds the number of
steps. -/
def replaceFrom (pat rep : List Char) : ℕ → List Char → List Char
  | _, [] => []
  | 0, l => l
  | fuel + 1, c :: rest =>
    if pat ≠ [] ∧ (c :: rest).take pat.length = pat then
      rep ++ replaceFrom pat rep fuel (rest.drop (pat.length - 1))
    else c :: replaceFrom pat rep fuel rest

/-- `String.prototype.replace` with a global plain pattern (what the
template regex amounts to for each fixed key). -/
def strReplace (s pat rep : String) : String :=
  String.mk (replaceFrom pat.data rep.data s.data.length s.data)

/-- `displayName.split(' ')[0]`: the characters before the first space. -/
def firstWord (s : String) : String := String.mk (s.data.takeWhile (fun c => c ≠ ' '))

/-- `parts.join(' ')`. -/
def joinSep (sep : String) : List String → String
  | [] => ""
  | [x] => x
  | x :: xs => x ++ sep ++ joinSep sep xs

/-- Suffix test on strings (structural, over the character lists). -/
def strEndsWith (s suffix : String) : Bool :=
  List.isPrefixOf suffix.data.reverse s.data.reverse

/-- The template environment built for each message. -/
structure TEnv where
  token : String
  indicator : String
  timeframe : String
  order : String
  tp : String
  stop : String
  pct : String
deriving Repr

/-- `renderTemplate(template, env)`: the JS single-pass regex replace of
`{word}` placeholders; the templates only mention the seven known keys and
no substituted value contains braces, so keywise `String.replace` is
equivalent. -/
def renderTemplate (tpl : String) (env : TEnv) : String :=
  strReplace (strReplace (strReplace (strReplace (strReplace (strReplace (strReplace
    tpl "{token}" env.token) "{indicator}" env.indicator) "{timeframe}" env.timeframe)
    "{order}" env.order) "{tp}" env.tp) "{stop}" env.stop) "{pct}" env.pct

/-- JS `String.prototype.length` counts UTF-16 code units: code points at
or above `0x10000` (the emoji used here) count twice. -/
def utf16Len (t : String) : ℕ :=
  t.data.foldl (fun n c => n + (if c.toNat < 65536 then 1 else 2)) 0

/-- The UTF-16 code units of a string (surrogate pairs for astral code
points), as read by `charCodeAt`. -/
def utf16Units (t : String) : List ℕ :=
  t.data.foldr
    (fun c acc =>
      if c.toNat < 65536 then c.toNat :: acc
      else (55296 + (c.toNat - 65536) / 1024) :: (56320 + (c.toNat - 65536) % 1024) :: acc)
    []

/-- JS `ToUint32` of an integer-valued number. -/
def toUint32 (z : ℤ) : ℕ := (z % (U32 : ℤ)).toNat

/-- JS `ToInt32` of an integer-valued number. -/
def toInt32 (z : ℤ) : ℤ :=
  let u := z % (U32 : ℤ)
  if u < 2147483648 then u else u - (U32 : ℤ)

/-- `h << k` on an `Int32` with 32-bit pattern `u`: the signed value of
`(u * 2^k) mod 2^32`. -/
def shl32val (u : ℕ) (k : ℕ) : ℤ := toInt32 ((u * 2 ^ k % U32 : ℕ) : ℤ)

/-- One iteration of the FNV-ish `contentHash` loop:
`h ^= s.charCodeAt(i); h += (h<<1) + (h<<4) + (h<<7) + (h<<8) + (h<<24)`. -/
def hashStep (h : ℤ) (c : ℕ) : ℤ :=
  let u := toUint32 h ^^^ c
  toInt32 (u : ℤ) +
    (shl32val u 1 + shl32val u 4 + shl32val u 7 + shl32val u 8 + shl32val u 24)

/-- `(h >>> 0).toString(16)`. -/
def toHexString (n : ℕ) : String := String.mk (Nat.toDigits 16 n)

/-- `contentHash(s)`: deterministic text fingerprint used for dedupe. -/
def contentHash (t : String) : String :=
  toHexString (toUint32 ((utf16Units t).foldl hashStep 2166136261))

/-- The chatty/noisy branch word loop (`0.42 ≤ tPick < 0.72`). -/
def chattyWords (s : ℕ) : ℕ → List String × ℕ
  | 0 => ([], s)
  | n + 1 =>
    let p1 := rngNext s
    if p1.2 < 13/100 then
      let t := pickFrom TOKENS "BTC" p1.1
      let rest := chattyWords t.2 n
      (t.1 :: rest.1, rest.2)
    else
      let p2 := rngNext p1.1
      if p2.2 < 11/100 then
        let e := pickFrom MSG_EMOJI "🚀" p2.1
        let rest := chattyWords e.2 n
        (e.1 :: rest.1, rest.2)
      else
        let w := pickFrom CHATTY_WORDS "check" p2.1
        let rest := chattyWords w.2 n
        (w.1 :: rest.1, rest.2)

/-- Everything `_generateMessageForIndex` computes before the reply draw:
sender pick, template environment, text branch and attachment, with the
final RNG state. -/
structure MsgCore where
  senderName : String
  senderDisplayName : String
  senderRole : String
  senderAvatar : String
  text : String
  attachment : Option MsgAttachment
  s : ℕ
deriving Repr

/-- `/\.(png|jpe?g)$/i.test(filename)` — the five attachment titles are
lowercase, so a lowercase suffix check is exact. -/
def isImageName (f : String) : Bool :=
  strEndsWith f ".png" || strEndsWith f ".jpg" || strEndsWith f ".jpeg"

/-- `_generateMessageForIndex` lines 124–183: per-index RNG, sender pick
(from the ambient `SyntheticPeople.people` pool when non-empty, else a
deterministic `Member_…` stand-in), template environment, one of the four
text families, and attachment draw. -/
def genMsgCore (i : ℕ) (opts : GenOpts) (people : List Sender) : MsgCore :=
  let s0 := xorshift32Init (opts.seedBase + i * 15721)
  let senderP : Sender × ℕ :=
    if people.length ≠ 0 then
      let p := rngNext s0
      let idx := jsFloorNat (p.2 * people.length)
      ((people.get? idx).getD ⟨"", "", "", ""⟩, p.1)
    else
      (⟨"Member_" ++ toString (i % 5000 + 1), "Member " ++ toString (i % 5000 + 1),
        "VERIFIED", ""⟩, s0)
  let sender := senderP.1
  let tokenP := pickFrom TOKENS "BTC" senderP.2
  let indicatorP := pickFrom INDICATORS "RSI" tokenP.2
  let timeframeP := pickFrom TIMEFRAMES "1m" indicatorP.2
  let orderP := pickFrom ORDERS "buy" timeframeP.2
  let priceP := randPriceForToken tokenP.1 orderP.2
  let price := priceP.1
  let tpDraw := rngNext priceP.2
  let tp := fmtPrice (price * (1 + (tpDraw.2 * (8/100) + 2/100)))
  let stopDraw := rngNext tpDraw.1
  let stop := fmtPrice (price * (1 - (stopDraw.2 * (12/100) + 1/100)))
  let pctDraw := rngNext stopDraw.1
  let pct := fmtPercent ((pctDraw.2 - 1/2) * 20)
  let env : TEnv := ⟨tokenP.1, indicatorP.1, timeframeP.1, orderP.1, tp, stop, pct⟩
  let tPickDraw := rngNext pctDraw.1
  let tPick := tPickDraw.2
  let textP : String × ℕ :=
    if tPick < 42/100 then
      let tplP := pickFrom COMMON_PHRASES "" tPickDraw.1
      (renderTemplate tplP.1 env, tplP.2)
    else if tPick < 72/100 then
      let wDraw := rngNext tPickDraw.1
      let words := jsFloorNat (wDraw.2 * ((opts.maxWords : ℚ) - (opts.minWords : ℚ)) + opts.minWords)
      let parts := chattyWords wDraw.1 words
      (joinSep " " parts.1, parts.2)
    else if tPick < 87/100 then
      (firstWord sender.displayName ++ " posted: " ++ tokenP.1 ++ " " ++
        orderP.1 ++ " @ " ++ fmtPrice price ++ " — TP " ++ tp ++ " / SL " ++ stop ++
        " (" ++ pct ++ ")", tPickDraw.1)
    else
      let qP := pickFrom QUESTION_TEMPLATES "" tPickDraw.1
      (renderTemplate qP.1 env, qP.2)
  let attDraw := rngNext textP.2
  let hasAttachment := attDraw.2 < opts.attachmentFraction
  let attP : Option String × ℕ :=
    if hasAttachment then
      let a := pickFrom ATTACH_TITLES "" attDraw.1
      (some a.1, a.2)
    else (none, attDraw.1)
  { senderName := sender.name,
    senderDisplayName := sender.displayName,
    senderRole := sender.role,
    senderAvatar := sender.avatar,
    text := textP.1,
    attachment := attP.1.map (fun f =>
      ⟨f, if isImageName f then "assets/" ++ f else ""⟩),
    s := attP.2 }

/-- `_generateMessageForIndex` lines 185–191, the reply draw:
`isReply = rnd() < replyFraction`; when `isReply && i > 8`,
`offset = 2 + Math.floor(rnd() * Math.min(500, i - 2))` and
`replyTo = 'msg_' + (i - offset)`. -/
def replyDraw (s : ℕ) (i : ℕ) (rf : ℚ) : Option String × ℕ :=
  let p := rngNext s
  if p.2 < rf ∧ 8 < i then
    let q := rngNext p.1
    let offset := 2 + jsFloorNat (q.2 * ((min 500 (i - 2) : ℕ) : ℚ))
    (some ("msg_" ++ toString (i - offset)), q.1)
  else (none, p.1)

/-- The timestamp line 197–202: `earliest = now - spanDays*86400000`;
`time = Math.round(earliest + frac * (spanDays*86400000) + jitter)`. -/
def msgTime (now : ℤ) (spanMs frac jitterU : ℚ) : ℤ :=
  jsRound (((now : ℚ) - spanMs) + frac * spanMs + ((jitterU - 1/2) * 3600000))

/-- All RNG-derived parts of a generated message (everything except the
wall-clock anchored timestamp, which only consumes the jitter draw). -/
structure MsgParts where
  senderName : String
  senderDisplayName : String
  senderRole : String
  senderAvatar : String
  text : String
  replyTo : Option String
  pinned : Bool
  jitterU : ℚ
  attachment : Option MsgAttachment
deriving Repr

/-- `_generateMessageForIndex` lines 124–223 minus the timestamp anchor:
core, reply draw, pinned draw, jitter draw, and the short-text emoji fix
(`if (text.length < 6) text += ' ' + pickFrom(EMOJI, rnd)`), in source
order. -/
def genMsgParts (i : ℕ) (opts : GenOpts) (people : List Sender) : MsgParts :=
  let core := genMsgCore i opts people
  let rp := replyDraw core.s i opts.replyFraction
  let pn := rngNext rp.2
  let pinned := pn.2 < opts.pinnedFraction
  let jt := rngNext pn.1
  let tfix : String × ℕ :=
    if utf16Len core.text < 6 then
      let e := pickFrom MSG_EMOJI "🚀" jt.1
      (core.text ++ " " ++ e.1, e.2)
    else (core.text, jt.1)
  { senderName := core.senderName,
    senderDisplayName := core.senderDisplayName,
    senderRole := core.senderRole,
    senderAvatar := core.senderAvatar,
    text := tfix.1,
    replyTo := rp.1,
    pinned := pinned,
    jitterU := jt.2,
    attachment := core.attachment }

/-- `MessagePool._generateMessageForIndex(i, opts)`: the full message
record.  `now` is the `Date.now()` reading, `people` the ambient
`SyntheticPeople.people` pool. -/
def genMessageForIndex (i : ℕ) (opts : GenOpts) (people : List Sender) (now : ℤ) : Msg :=
  let parts := genMsgParts i opts people
  { id := "msg_" ++ toString (i + 1),
    name := strOr parts.senderName
      (strOr parts.senderDisplayName ("Member_" ++ toString (i % 5000 + 1))),
    displayName := strOr parts.senderDisplayName parts.senderName,
    role := strOr parts.senderRole "VERIFIED",
    avatar := strOr parts.senderAvatar "",
    text := parts.text,
    out := false,
    time := msgTime now (opts.spanDays * 86400000) ((i : ℚ) / max 1 (opts.size : ℚ))
      parts.jitterU,
    replyTo := parts.replyTo,
    pinned := parts.pinned,
    attachment := parts.attachment }

/-- Setting the wall-clock anchored field to a fixed value. -/
def Msg.eraseTime (m : Msg) : Msg := { m with time := 0 }

/-! ## message-pool: LRU, `generatePool`, `getRange`, `getMessageByIndex` -/

/-- The dedupe LRU (`makeLRU`): `keys` is duplicate-free by construction,
so the JS set mirrors the key list exactly and membership on the list is
the `has` check. -/
def lruHas (keys : List String) (k : String) : Bool := keys.contains k

/-- `push(k)`: skip if present, else append and shift from the front while
over capacity. -/
def lruPush (cap : ℕ) (keys : List String) (k : String) : List String :=
  if keys.contains k then keys
  else
    let ks := keys ++ [k]
    ks.drop (ks.length - cap)

/-- The `generatePool` dedupe loop
(`while (lru.has(h) && attempts < 6) { … }`), rewriting the text from a
perturbed-seed regeneration plus an emoji drawn from a fresh
`xorshift32(seedBase + attempts + i)` on even attempts. -/
def dedupeText (opts : GenOpts) (people : List Sender) (now : ℤ)
    (lru : List String) (i : ℕ) : ℕ → ℕ → String → String
  | 0, _, t => t
  | fuel + 1, attempts, t =>
    if lruHas lru (contentHash t) then
      let alt := genMessageForIndex (i + attempts + 1)
        { opts with seedBase := opts.seedBase + attempts + 1 } people now
      let extra :=
        if attempts % 2 = 0 then
          " " ++ (pickFrom MSG_EMOJI "🚀" (xorshift32Init (opts.seedBase + attempts + i))).1
        else ""
      dedupeText opts people now lru i fuel (attempts + 1) (alt.text ++ extra)
    else t

/-- One `generatePool` loop iteration: generate, dedupe against the LRU,
push the final fingerprint, append the (possibly text-rewritten) message. -/
def poolStep (opts : GenOpts) (people : List Sender) (now : ℤ)
    (st : List Msg × List String) (i : ℕ) : List Msg × List String :=
  let m := genMessageForIndex i opts people now
  let t := dedupeText opts people now st.2 i 6 0 m.text
  (st.1 ++ [{ m with text := t }], lruPush 2048 st.2 (contentHash t))

/-- `MessagePool.generatePool(opts)` (the message array it returns): the
requested size is clamped into `[50, 500000]` and every generator call uses
the clamped size. -/
def generatePoolMsgs (opts : GenOpts) (people : List Sender) (now : ℤ) : List Msg :=
  let size := clampNat opts.size 50 500000
  ((List.range size).foldl (poolStep { opts with size := size } people now) ([], [])).1

/-- The LRU state just before `generatePool` processes index `i`. -/
def lruStateAt (opts : GenOpts) (people : List Sender) (now : ℤ) (i : ℕ) : List String :=
  ((List.range i).foldl (poolStep opts people now) ([], [])).2

/-- `MessagePool.getRange(start, count)` in the lazy (no materialized pool)
branch of message-pool: clamp, then generate each index on demand with the
meta options. -/
def getRangeLazy (opts : GenOpts) (people : List Sender) (now : ℤ)
    (start count : ℕ) : List Msg :=
  let sz := opts.size
  let s := min start (sz - 1)
  let c := min count (sz - s)
  (List.range c).map (fun j => genMessageForIndex (s + j) opts people now)

/-- `MessagePool.getMessageByIndex(i)` in message-pool (src/unnamed/part_000
lines 275–283): with a materialized pool, out-of-range returns `null`;
without one, only negative (or non-numeric) indices return `null` and any
`i ≥ 0` is generated on the fly from the meta options. -/
def getMessageByIndexPool (messages : List Msg) (opts : GenOpts)
    (people : List Sender) (now : ℤ) (i : ℤ) : Option Msg :=
  if messages.length ≠ 0 then
    if i < 0 ∨ (messages.length : ℤ) ≤ i then none
    else messages.get? i.toNat
  else
    if i < 0 then none
    else some (genMessageForIndex i.toNat opts people now)

/-- `MessagePool.getMessageByIndex(i)` in the typing-engine copy of
message-pool (src/typing-engine.js line 694): `null` whenever no pool is
materialized, `null` out of range, else the pool entry. -/
def getMessageByIndexTE (messages : List Msg) (i : ℤ) : Option Msg :=
  if messages.length = 0 then none
  else if i < 0 ∨ (messages.length : ℤ) ≤ i then none
  else messages.get? i.toNat

/-- A 50-message configuration (the smallest `generatePool` accepts). -/
def poolOpts50 : GenOpts := { defaultGenOpts with size := 50 }

/-- Seed 4004 produces a dedupe collision already at pool index 4. -/
def poolOptsC2 : GenOpts := { defaultGenOpts with seedBase := 4004, size := 50 }

/-- A declared size of 100 with no materialized pool. -/
def poolOpts100 : GenOpts := { defaultGenOpts with size := 100 }

/-- The message `generatePool` stores at index `i`: the fresh generation
with its text run through the dedupe loop against the LRU state at `i`. -/
def poolMsgAt (opts : GenOpts) (people : List Sender) (now : ℤ) (i : ℕ) : Msg :=
  let m := genMessageForIndex i opts people now
  { m with text := dedupeText opts people now (lruStateAt opts people now i) i 6 0 m.text }

/-! ## synthetic-people (PeopleStore variant): `createPerson` and `init` -/

def cryptoHandles : List String :=
  ["HODLer", "BitNinja", "SatoshiFan", "MoonChaser", "AlphaSeer", "GammaBot",
   "Candlestick", "DeltaTrader", "Pulse", "OnchainGeek", "DeFiDave", "ChartQueen"]

def psFirstNames : List String :=
  ["Ava", "Liam", "Noah", "Olivia", "Emma", "Lucas", "Mia", "Ethan", "Amir", "Zara",
   "Kai", "Nora", "Jonah", "Layla", "Ivy", "Owen", "Maya", "Leo", "Hana", "Ibrahim"]

def psLastNames : List String :=
  ["Okoye", "Smith", "Johnson", "Chen", "Nguyen", "Khan", "Gonzalez", "Ivanov",
   "Patel", "Silva", "Kim", "Park", "Andersen", "Martin", "Brown", "Tadesse",
   "Bakare", "Mensah", "Ndlovu", "Almeida"]

def psCountries : List String :=
  ["Nigeria", "USA", "UK", "India", "Germany", "Brazil", "Turkey", "UAE", "Russia",
   "Kenya", "Ghana", "South Africa", "Egypt", "China", "Spain", "France",
   "Netherlands", "Canada", "Australia", "Morocco"]

def psLanguages : List String :=
  ["en", "pt", "es", "fr", "ar", "tr", "ru", "zh", "hi", "nl", "de", "yo", "ig", "ha", "sw"]

/-- The people-store archetype ids (only the `id` field of the archetype
record flows into the generated person). -/
def psArchetypes : List String :=
  ["analyst", "shill", "skeptic", "moderator", "noisy", "helper"]

/-- `toFixed(3)` rounding (half away from the floor boundary is immaterial
for the claims; modelled as `Math.round` at three decimals). -/
def roundTo3 (q : ℚ) : ℚ := (jsRound (q * 1000) : ℚ) / 1000

/-- DiceBear identicon URL (people-store variant).  `URLSearchParams`
percent-encoding is abstracted to plain concatenation: no claim depends on
the escaped bytes, only on the URL being a function of the seed. -/
def psDicebearUrl (seed : String) : String :=
  "https://api.dicebear.com/8.x/identicon/svg?seed=" ++ seed ++ "&scale=90"

structure PSPersonality where
  archetype : String
  energy : ℚ
  curiosity : ℚ
  confidence : ℚ
  emojiAffinity : ℤ
deriving DecidableEq, Repr

structure PSAuthority where
  level : ℕ
  intimidatedByAdmin : ℚ
  respectForMods : ℚ
deriving DecidableEq, Repr

structure PSPerson where
  id : String
  name : String
  role : String
  avatar : String
  country : String
  language : String
  emotionalBaseline : ℚ
  personality : PSPersonality
  fatigueScore : ℚ
  authority : PSAuthority
  lastActive : ℤ
deriving DecidableEq, Repr

/-- `createPerson(rng, idx, opts)` from the people-store file: note that no
uniqueness check of any kind is applied to `name`. -/
def createPerson (s : ℕ) (idx : ℕ) (honorPrefix : Option String) (now : ℤ) :
    PSPerson × ℕ :=
  let p1 := rngNext s
  let useHandle := p1.2 < 14/100
  let nameP : String × ℕ :=
    if useHandle then pickFrom cryptoHandles "" p1.1
    else
      let f := pickFrom psFirstNames "" p1.1
      let l := pickFrom psLastNames "" f.2
      (f.1 ++ " " ++ l.1, l.2)
  let name := match honorPrefix with
    | some hp => hp ++ " " ++ nameP.1
    | none => nameP.1
  let roleP := rngNext nameP.2
  let role := if roleP.2 < 1/100 then "ADMIN"
    else if roleP.2 < 6/100 then "MOD" else "VERIFIED"
  let countryP := pickFrom psCountries "" roleP.1
  let langP := pickFrom psLanguages "" countryP.2
  let archP := pickFrom psArchetypes "" langP.2
  let emotP := rngNext archP.2
  let emotBase := (emotP.2 - 1/2) * (12/10)
  let energyP := rngNext emotP.1
  let curiosityP := rngNext energyP.1
  let confidenceP := rngNext curiosityP.1
  let emojiP1 := rngNext confidenceP.1
  let emojiP2 := rngNext emojiP1.1
  let emojiAffinity : ℤ :=
    if emojiP1.2 < 32/100 then jsRound (emojiP2.2 * 3) else jsRound (emojiP2.2 * 1)
  let intimP : ℚ × ℕ :=
    if role = "VERIFIED" then
      let q := rngNext emojiP2.1
      (clampQ (q.2 * (6/10)) 0 1, q.1)
    else (0, emojiP2.1)
  let respP : ℚ × ℕ :=
    if role = "VERIFIED" then
      let q := rngNext intimP.2
      (clampQ ((3/10) + q.2 * (6/10)) 0 1, q.1)
    else (9/10, intimP.2)
  let lastP := rngNext respP.2
  ({ id := "p_" ++ toString idx,
     name := name,
     role := role,
     avatar := psDicebearUrl (name ++ "-" ++ toString idx ++ "-" ++ toString (now % 1000)),
     country := countryP.1,
     language := langP.1,
     emotionalBaseline := roundTo3 emotBase,
     personality := ⟨archP.1,
       clampQ (6/10 + (energyP.2 - 1/2) * (6/10)) (2/10) (14/10),
       clampQ (6/10 + (curiosityP.2 - 1/2) * (6/10)) (2/10) (14/10),
       clampQ (6/10 + (confidenceP.2 - 1/2) * (6/10)) (15/100) (16/10),
       emojiAffinity⟩,
     fatigueScore := 0,
     authority := ⟨if role = "ADMIN" then 3 else if role = "MOD" then 2 else 1,
       intimP.1, respP.1⟩,
     lastActive := now - (jsFloorNat (lastP.2 * 3600000) : ℤ) },
   lastP.1)

/-- `PeopleStore.init({targetCount, seed, honorPrefix})`: clamp the count
into `[1, 5000]`, seed one shared `makeRng` stream, and push `createPerson`
outputs with no deduplication.  `fallback` is the `Math.random()` substitute
used only when the seed is zero. -/
def peopleStoreInit (seed fallback targetCount : ℕ) (honorPrefix : Option String)
    (now : ℤ) : List PSPerson :=
  let count := max 1 (min 5000 targetCount)
  let s0 := makeRngInit seed fallback
  ((List.range count).foldl
    (fun acc i =>
      let pr := createPerson acc.2 (i + 1) honorPrefix now
      (acc.1 ++ [pr.1], pr.2))
    (([] : List PSPerson), s0)).1

/-! ## synthetic-people: `ensureUnique` and `SyntheticPeople.generatePool` -/

def SP_FIRST : List String :=
  ["Alex", "Sam", "Taylor", "Jordan", "Morgan", "Casey", "Riley", "Cameron", "Jamie", "Robin",
   "Avery", "Drew", "Quinn", "Harper", "Sky", "Kai", "Dev", "Noor", "Maya", "Ibrahim",
   "Omar", "Amira", "Levi", "Zoe", "Liam", "Aria", "Mateo", "Nina", "Yara", "Eli",
   "Sofia", "Lucas", "Isla", "Ethan", "Chloe", "Noah", "Luna", "Ava", "Mason", "Mila",
   "Hugo", "Ivy", "Arjun", "Fatima", "Salim", "Diego", "Sara", "Rosa", "Hana", "Kofi",
   "Ines", "Rafael", "Marta", "Anya", "Viktor", "Ken", "Aisha", "Olu", "Evelyn", "Nora",
   "Theo", "Oscar", "Lara", "Zain", "Yuki", "Rina", "Sven", "Mariam", "Boris", "Alina",
   "Hassan", "Rami", "Jade", "Ruben", "Nadia", "Gabe", "Tara", "Iris", "Kian", "Mira",
   "Selin", "Anil", "Sora", "Mitsu", "Hector", "Lina", "Kei", "Raya", "Iman", "Zara",
   "Beno", "Celia", "Dara", "Enzo", "Fahad", "Gina", "Youssef", "Leela", "Pavan", "Ritu"]

def SP_MIDDLE : List String :=
  ["", "Lee", "Kai", "Jean", "Noor", "Lynn", "Roy", "Anne", "Ray", "J", "A.", "X", "Sol",
   "Ny", "Rey", ""]

def SP_LAST : List String :=
  ["Lee", "Patel", "Singh", "Garcia", "Kim", "Nguyen", "Johnson", "Brown", "Wilson",
   "Martinez", "Silva", "Costa", "Ivanov", "Chen", "Khan", "Mendes", "Gomez", "Rossi",
   "Moreau", "Okoye",
   "Hernandez", "Santos", "Lopez", "Kaur", "Yamamoto", "Kowalski", "Popov", "Petrov",
   "Kilic", "Muller", "Schmidt", "Nowak", "Ferreira", "Ali", "Hosseini", "Osei", "Bello",
   "Akande",
   "Park", "Tran", "Liu", "Zhang", "Wang", "Hussain", "Ramos", "Pereira", "Das", "Mehta",
   "Abdullah", "Bakar", "Herrera", "Gonzalez", "Moretti", "Ricci", "Bianchi", "Youssef",
   "Souza", "Pinto", "Martins", "Khatri", "Chowdhury", "Okafor", "Ibrahim", "Roman",
   "Diaz", "Blanco", "Klein", "Smith", "Adams", "Ng", "Sato", "Ito", "Murphy", "Kelly",
   "Parker"]

def SP_EMOJI : List String :=
  ["🌐", "⭐", "🚀", "💎", "🔥", "📈", "🤖", "🪙", "⚡", "🔒", "✨", "🦄"]

def SP_TITLES : List String :=
  ["", "", "", "Jr", "Sr", "II", "III", "_x", "_bot", "_VIP", "_OG"]

def SP_COUNTRIES : List String :=
  ["US", "GB", "NG", "IN", "PK", "CN", "RU", "BR", "CA", "AU", "TR", "AE", "DE", "FR",
   "ZA", "EG", "SA", "JP", "KR", "ES", "IT", "NL", "SE", "NO", "MX", "AR"]

def SP_LANGS : List String :=
  ["en", "es", "fr", "pt", "ar", "ru", "zh", "hi", "tr", "ur", "nl", "sv", "no", "it",
   "de", "fa", "bn", "yo", "ig", "ha"]

def SP_ARCHETYPES : List String :=
  ["Analyst", "MemeTrader", "HODLer", "BotBuilder", "Shiller", "Moderator",
   "QuietObserver", "Questioner", "Researcher", "Whale", "DayTrader", "Scalper",
   "Investor"]

def SP_EMOTIONS : List String :=
  ["neutral", "positive", "excited", "angry", "skeptical", "curious", "tired",
   "confident", "nervous"]

def SP_STYLES : List String :=
  ["micah", "adventurer", "pixel-art", "identicon", "personas", "big-ears", "gridy"]

def FIXED_ADMIN_NAME : String := "Profit Hunter 🌐"

def FIXED_MOD_NAME : String := "Kitty Star ⭐"

/-- One uppercase hex digit. -/
def hexDigitU (n : ℕ) : Char :=
  if n < 10 then Char.ofNat (48 + n) else Char.ofNat (55 + n)

/-- `encodeURIComponent` on one character.  Every call site in
synthetic-people feeds ASCII (style names and `name|index` seeds), so the
single-byte percent escape is the exact JS behaviour there. -/
def encURIChar (c : Char) : String :=
  if c.isAlphanum ∨ c = '-' ∨ c = '_' ∨ c = '.' ∨ c = '!' ∨ c = '~' ∨ c = '*' ∨
      c = '(' ∨ c = ')' ∨ c = '\'' then
    String.mk [c]
  else
    String.mk ['%', hexDigitU (c.toNat / 16 % 16), hexDigitU (c.toNat % 16)]

def encURIComponent (t : String) : String :=
  String.join (t.data.map encURIChar)

/-- `dicebear(seed, style)`. -/
def spDicebear (seed style : String) : String :=
  "https://api.dicebear.com/6.x/" ++ encURIComponent style ++ "/svg?seed=" ++
    encURIComponent seed ++ "&scale=100"

/-- `pravatar(index)`. -/
def spPravatar (index : ℕ) : String :=
  "https://i.pravatar.cc/150?img=" ++ toString (index % 70 + 1)

/-- JS `String.prototype.trim` (the names here only ever carry plain
whitespace). -/
def strTrim (t : String) : String :=
  String.mk (((t.data.dropWhile Char.isWhitespace).reverse.dropWhile
    Char.isWhitespace).reverse)

/-- `displayName.replace(/[^a-zA-Z0-9\s_]/g, '').trim() || 'User'`. -/
def spSanitizeBase (dn : String) : String :=
  let b := strTrim (String.mk (dn.data.filter
    (fun c => c.isAlphanum ∨ c.isWhitespace ∨ c = '_')))
  if b = "" then "User" else b

/-- The suffix candidate for attempt `i` of `ensureUnique`, drawing one
`rndForSuffix` value for the first nine attempts. -/
def spSuffixCandidate (base : String) (i : ℕ) (rs : ℕ) : String × ℕ :=
  if i < 10 then
    let p := rngNext rs
    if p.2 < 18/100 then (base ++ " " ++ (SP_EMOJI.get? (i % 12)).getD "", p.1)
    else if p.2 < 36/100 then
      (base ++ (SP_TITLES.get? (i % 11)).getD "" ++ toString i, p.1)
    else (base ++ "_" ++ toString i, p.1)
  else (base ++ "_" ++ toString i, rs)

/-- The `for(let i=1;i<=9999;i++)` candidate loop of `ensureUnique`:
`none` means all 9999 candidates were taken. -/
def euLoop (base : String) (used : List String) : ℕ → ℕ → ℕ → Option (String × ℕ)
  | 0, _, _ => none
  | fuel + 1, i, rs =>
    if (spSuffixCandidate base i rs).1 ∈ used then
      euLoop base used fuel (i + 1) (spSuffixCandidate base i rs).2
    else some (spSuffixCandidate base i rs)

/-- `ensureUnique(displayName, used, rndForSuffix)`: the JS `Set` is
mirrored as the list of its members.  Returns the chosen name, the updated
set, the advanced suffix-RNG state, and whether the `Date.now()` fallback
(which skips the membership check) fired; `now` stands for that
`Date.now()` reading. -/
def ensureUnique (dn : String) (used : List String) (rs : ℕ) (now : ℤ) :
    String × List String × ℕ × Bool :=
  if dn ∈ used then
    match euLoop (spSanitizeBase dn) used 9999 1 rs with
    | some c => (c.1, c.1 :: used, c.2, false)
    | none =>
      let fb := dn ++ "_" ++ toString now
      (fb, fb :: used, rs, true)
  else (dn, dn :: used, rs, false)

structure SPProfile where
  fatigue : Option ℚ
  archetype : Option String
  lang : Option String
deriving DecidableEq, Repr

structure SPMember where
  id : String
  name : String
  displayName : String
  role : String
  avatar : String
  country : String
  language : String
  emotionBaseline : String
  personality : String
  fatigue : ℚ
  authority : ℕ
  lastActive : ℤ
deriving DecidableEq, Repr

structure SPState where
  people : List SPMember
  used : List String
  gs : ℕ
  fellBack : Bool
deriving Repr

def spNames (st : SPState) : List String := st.people.map SPMember.displayName

/-- `gen.rollRole(i, includeAdmin, includeMod)`. -/
def spRollRole (i : ℕ) (incA incM : Bool) (s : ℕ) : String × ℕ :=
  if i = 0 ∧ incA = true then ("ADMIN", s)
  else if i = 1 ∧ incM = true then ("MOD", s)
  else
    let p := rngNext s
    if p.2 < 2/100 then ("ADMIN", p.1)
    else if p.2 < 8/100 then ("MOD", p.1)
    else ("VERIFIED", p.1)

/-- `gen.avatarForIndex(i, nameSeed, allowRealPhotos)`. -/
def spAvatarForIndex (mix : ℚ) (styles : List String) (i : ℕ) (nameSeed : String)
    (allowReal : Bool) (s : ℕ) : String × ℕ :=
  let v := rngNext s
  if allowReal = false then
    let st := pickFrom styles "" v.1
    (spDicebear (nameSeed ++ "|" ++ toString i) st.1, st.2)
  else if v.2 ≤ mix then
    let st := pickFrom styles "" v.1
    (spDicebear (nameSeed ++ "|" ++ toString i) st.1, st.2)
  else
    let q := rngNext v.1
    (spPravatar (i + jsFloorNat (q.2 * 1000)), q.1)

def spLower (t : String) : String := String.mk (t.data.map Char.toLower)

/-- `displayName.charAt(0).toUpperCase() + displayName.slice(1)` (the base
names all start with an ASCII letter). -/
def spCapFirst (t : String) : String :=
  match t.data with
  | [] => t
  | c :: rest => String.mk (c.toUpper :: rest)

/-- `(i+1).toString().padStart(6, '0')`. -/
def spPad6 (n : ℕ) : String :=
  let s := toString n
  String.mk (List.replicate (6 - s.length) '0') ++ s

/-- The `generatePool` display-name pipeline on the shared generator
stream: first/middle/last picks (`middle` may be the empty string and is
then skipped), then the `nameFlavor` decoration (emoji prefix/suffix,
case tweak, or title-plus-number suffix). -/
def spDrawName (gs : ℕ) : String × ℕ :=
  let f := pickFrom SP_FIRST "" gs
  let m := pickFrom SP_MIDDLE "" f.2
  let l := pickFrom SP_LAST "" m.2
  let dn0 := if m.1 = "" then f.1 ++ " " ++ l.1 else f.1 ++ " " ++ m.1 ++ " " ++ l.1
  let pF := rngNext l.2
  let nf := jsFloorNat (pF.2 * 100)
  if nf < 6 then
    let q := rngNext pF.1
    let e := pickFrom SP_EMOJI "" q.1
    (if q.2 < 1/2 then e.1 ++ " " ++ dn0 else dn0 ++ " " ++ e.1, e.2)
  else if nf < 14 then
    let q := rngNext pF.1
    (if q.2 < 1/2 then spLower dn0 else spCapFirst dn0, q.1)
  else if nf < 24 then
    let t := pickFrom SP_TITLES "" pF.1
    let q := rngNext t.2
    (dn0 ++ t.1 ++ toString (jsFloorNat (q.2 * 999)), q.1)
  else (dn0, pF.1)

/-- One iteration of the `SyntheticPeople.generatePool` loop (body of
`for(let i=0;i<size;i++)`): fixed admin slot at `i = 0`, fixed mod slot at
`i = 1`, otherwise a generated member whose display name passes through
`ensureUnique` against the shared `usedNames` set.  `profiles` is the
`localStorage` profile table (`loadProfile`); `now` is the `Date.now()`
reading. -/
def spStep (sb : ℕ) (incA incM allowReal : Bool) (mix : ℚ) (styles : List String)
    (profiles : String → Option SPProfile) (now : ℤ) (st : SPState) (i : ℕ) :
    SPState :=
  if i = 0 ∧ incA = true then
    let prof := (profiles "Profit_Hunter").getD ⟨none, none, none⟩
    let fat := prof.fatigue.getD (5/100)
    let arch := if prof.archetype.getD "" = "" then "Moderator" else prof.archetype.getD ""
    let lang := if prof.lang.getD "" = "" then "en" else prof.lang.getD ""
    { st with people := st.people ++
        [{ id := "admin_profit_hunter", name := "Profit_Hunter",
           displayName := FIXED_ADMIN_NAME, role := "ADMIN",
           avatar := "assets/admin.jpg", country := "US", language := lang,
           emotionBaseline := "neutral", personality := arch, fatigue := fat,
           authority := 3, lastActive := now }] }
  else if i = 1 ∧ incM = true then
    let prof := (profiles "Kitty_Star").getD ⟨none, none, none⟩
    let fat := prof.fatigue.getD (8/100)
    let arch := if prof.archetype.getD "" = "" then "Moderator" else prof.archetype.getD ""
    let lang := if prof.lang.getD "" = "" then "en" else prof.lang.getD ""
    { st with people := st.people ++
        [{ id := "mod_kitty_star", name := "Kitty_Star",
           displayName := FIXED_MOD_NAME, role := "MOD",
           avatar := "assets/mod.jpg", country := "US", language := lang,
           emotionBaseline := "neutral", personality := arch, fatigue := fat,
           authority := 2, lastActive := now - 60000 }] }
  else
    let shortName := "Member_" ++ spPad6 (i + 1)
    let rs0 := xorshift32Init (sb + i * 97)
    let nm := spDrawName st.gs
    let eu := ensureUnique nm.1 st.used rs0 now
    let role := spRollRole i incA incM nm.2
    let prof := (profiles shortName).getD ⟨none, none, none⟩
    let fatP : ℚ × ℕ :=
      match prof.fatigue with
      | some fv => (fv, role.2)
      | none =>
        let q := rngNext role.2
        (clampQ (q.2 * (25/100) + (if i % 50 = 0 then 1/10 else 0)) 0 (95/100), q.1)
    let archP : String × ℕ :=
      if prof.archetype.getD "" = "" then pickFrom SP_ARCHETYPES "" fatP.2
      else (prof.archetype.getD "", fatP.2)
    let langP : String × ℕ :=
      if prof.lang.getD "" = "" then pickFrom SP_LANGS "" archP.2
      else (prof.lang.getD "", archP.2)
    let av := spAvatarForIndex mix styles i shortName allowReal langP.2
    let co := pickFrom SP_COUNTRIES "" av.2
    let em := pickFrom SP_EMOTIONS "" co.2
    let la := rngNext em.2
    { people := st.people ++
        [{ id := "m_" ++ toString (i + 1) ++ "_" ++ toString sb, name := shortName,
           displayName := eu.1, role := role.1, avatar := av.1, country := co.1,
           language := langP.1, emotionBaseline := em.1, personality := archP.1,
           fatigue := fatP.1,
           authority := if role.1 = "ADMIN" then 3 else if role.1 = "MOD" then 2 else 1,
           lastActive := now - (jsFloorNat (la.2 * 1209600000) : ℤ) }],
      used := eu.2.1,
      gs := la.1,
      fellBack := st.fellBack || eu.2.2.2 }

/-- The state `SyntheticPeople.generatePool` starts from: empty array, the
fixed admin/mod display names reserved in `usedNames`, the shared
generator seeded with `xorshift32(seedBase)`. -/
def spInit (sb : ℕ) (incA incM : Bool) : SPState :=
  ⟨[], (if incA = true then [FIXED_ADMIN_NAME] else []) ++
       (if incM = true then [FIXED_MOD_NAME] else []),
   xorshift32Init sb, false⟩

/-- The `generatePool` loop after `k` iterations. -/
def spRun (sb : ℕ) (incA incM allowReal : Bool) (mix : ℚ) (styles : List String)
    (profiles : String → Option SPProfile) (now : ℤ) (k : ℕ) : SPState :=
  (List.range k).foldl (spStep sb incA incM allowReal mix styles profiles now)
    (spInit sb incA incM)

/-- `SyntheticPeople.generatePool(opts)`: size clamped into `[3, 500000]`,
a falsy `seedBase` replaced by the meta default `2026`. -/
def spGeneratePool (size sb : ℕ) (incA incM allowReal : Bool) (mix : ℚ)
    (styles : List String) (profiles : String → Option SPProfile) (now : ℤ) :
    SPState :=
  spRun (if sb = 0 then 2026 else sb) incA incM allowReal mix styles profiles now
    (clampNat size 3 500000)

/-! ## typing-engine: configuration constants (`DEFAULT`) -/

def baseWPM : ℚ := 42
def nightSlowdown : ℚ := 6/10
def mobileSlowdown : ℚ := 82/100
def fatigueRecoveryPerHour : ℚ := 8/100
def fatigueIncreasePerSession : ℚ := 6/100

/-! ## typing-engine: `FatigueStore` (persisted fatigue overlay) -/

structure FatigueEntry where
  v : ℚ
  t : ℤ
deriving DecidableEq, Repr

/-- The persisted fatigue map: a JS object keyed by person id.  Object
assignment `d[personId] = e` is modelled by consing, with lookup taking the
most recent binding. -/
def FatigueData := List (String × FatigueEntry)

def fatigueLookup (d : FatigueData) (pid : String) : Option FatigueEntry :=
  (List.find? (fun p => p.1 == pid) d).map (fun p => p.2)

/-- `FatigueStore.get(personId)`: missing entry reads as `0`; otherwise the
stored value recovers linearly with elapsed wall-clock time and the result
is clamped into `[0, 1]` (`Math.max(0, clamp(item.v - recovered, 0, 1))`). -/
def fatigueGet (d : FatigueData) (pid : String) (now : ℤ) : ℚ :=
  match fatigueLookup d pid with
  | none => 0
  | some item =>
    let elapsedH : ℚ := ((now - item.t : ℤ) : ℚ) / 3600000
    let recovered := elapsedH * fatigueRecoveryPerHour
    max 0 (clampQ (item.v - recovered) 0 1)

/-- `FatigueStore.increase(personId, amount)`; `amount || DEFAULT.fatigueIncreasePerSession`
resolves a falsy (zero) amount to the default increment. -/
def fatigueIncrease (d : FatigueData) (pid : String) (amount : ℚ) (now : ℤ) :
    FatigueData :=
  let old := fatigueGet d pid now
  let amt := if amount = 0 then fatigueIncreasePerSession else amount
  let v := clampQ (old + amt) 0 1
  (pid, ⟨v, now⟩) :: d

/-- `FatigueStore.set(personId, v)`. -/
def fatigueSet (d : FatigueData) (pid : String) (v : ℚ) (now : ℤ) : FatigueData :=
  (pid, ⟨clampQ v 0 1, now⟩) :: d

/-- `let baseWpm = DEFAULT.baseWPM * roleProfile.speedMult`. -/
def wpmAfterRole (speedMult : ℚ) : ℚ := baseWPM * speedMult

/-- `if (personality.wpmMult) baseWpm *= personality.wpmMult` (`0` and
`undefined` are falsy and skip the multiplication). -/
def wpmAfterPersonality (w wpmMult : ℚ) : ℚ :=
  if wpmMult = 0 then w else w * wpmMult

/-- `if (hour < 6 || hour > 22) baseWpm *= DEFAULT.nightSlowdown`. -/
def wpmAfterNight (w : ℚ) (hour : ℕ) : ℚ :=
  if hour < 6 ∨ 22 < hour then w * nightSlowdown else w

/-- `if (mobile) baseWpm *= DEFAULT.mobileSlowdown`. -/
def wpmAfterMobile (w : ℚ) (mobile : Bool) : ℚ :=
  if mobile then w * mobileSlowdown else w

/-- `baseWpm *= (1 - fatigue * 0.38)`. -/
def wpmAfterFatigue (w fatigue : ℚ) : ℚ := w * (1 - fatigue * (38/100))

/-- `if (emotional > 0.45) baseWpm *= 1.08; else if (emotional < -0.45)
baseWpm *= 0.86`. -/
def wpmAfterEmotion (w emotional : ℚ) : ℚ :=
  if (45/100) < emotional then w * (108/100)
  else if emotional < -(45/100) then w * (86/100)
  else w

/-- typing-engine `simulate` lines 174–186: baseline words-per-minute from
role multiplier, personality multiplier (skipped when falsy), night-time
and mobile slowdowns, fatigue penalty, and the emotional adjustment. -/
def computeBaseWpm (speedMult wpmMult : ℚ) (hour : ℕ) (mobile : Bool)
    (fatigue emotional : ℚ) : ℚ :=
  wpmAfterEmotion
    (wpmAfterFatigue
      (wpmAfterMobile (wpmAfterNight (wpmAfterPersonality (wpmAfterRole speedMult) wpmMult) hour)
        mobile)
      fatigue)
    emotional

/-! ## stimulation-engine: duplicate-tracking memory (`_rememberSeen`) -/

structure SeenState where
  seenSet : Finset String
  seenQueue : List String
deriving DecidableEq

/-- `SimulationEngine._seenLimit`. -/
def seenLimit : ℕ := 25000

/-- `SimulationEngine._rememberSeen(text)`: falsy text is ignored; otherwise
add to the set, push onto the queue, and if the queue now exceeds the limit
shift the oldest entry off the front and delete it from the set. -/
def rememberSeen (limit : ℕ) (st : SeenState) (text : String) : SeenState :=
  if text = "" then st
  else
    let set1 := insert text st.seenSet
    let q1 := st.seenQueue ++ [text]
    if limit < q1.length then
      ⟨set1.erase (q1.headD ""), q1.tail⟩
    else ⟨set1, q1⟩

/-! ## typing-engine: `simulate` session event machine (C4)

The scheduler of `TypingEngine.simulate` is a web of `setTimeout`
callbacks over the mutable session flags `running/paused/abandoned/sent`
plus the controller methods `cancel/interrupt/forceSend/pause`.  It is
embedded as a labelled transition system: `TSt.pending` holds the
outstanding timer callbacks, and an environment action either fires one
pending callback (in any order, since timer delays are arbitrary) or
invokes a controller method.  Events are recorded by kind in emission
order; payloads and the numeric delays do not influence which events are
emitted, only when, and are dropped.  The `FatigueStore.increase` calls
on send only affect later sessions and are modelled with the store
itself, not here. -/

inductive TEv where
  | start
  | progress
  | pause
  | abandoned
  | send
  | stop
deriving DecidableEq, Repr

def TEv.isTerminal : TEv → Bool
  | .send => true
  | .abandoned => true
  | .stop => true
  | _ => false

/-- Outstanding `setTimeout` callbacks of one session. -/
inductive PCB where
  | step
  | schedN
  | charT (ch : Char)
  | retype (deleted : List Char) (rIdx : ℕ)
  | ghostT
  | finalT
  | intrT
deriving DecidableEq, Repr

/-- Environment actions: fire the `k`-th pending callback, or call a
controller method. -/
inductive TAct where
  | fire (k : ℕ)
  | cancel
  | interrupt
  | forceSend
  | pauseCtl (flag : Bool)
deriving DecidableEq, Repr

def TAct.isFire : TAct → Bool
  | .fire _ => true
  | _ => false

/-- The session configuration fields that influence which events are
emitted: the character array, RTL direction, the ghost/interrupt feature
flags, `personality.perfection` truthiness, the emotional baseline and
the fatigue read at session start.  Role/mobile/night multipliers only
scale delays and are dropped. -/
structure SimCfg where
  chars : List Char
  isRTL : Bool
  allowGhost : Bool
  interruptable : Bool
  perfection : Bool
  emotional : ℚ
  fatigue : ℚ
deriving Repr

structure TSt where
  idx : ℕ
  typed : List Char
  running : Bool
  paused : Bool
  abandoned : Bool
  sent : Bool
  interrupted : Bool
  rng : ℕ
  pending : List PCB
  trace : List TEv
deriving Repr

def emitTE (st : TSt) (e : TEv) : TSt := { st with trace := st.trace ++ [e] }

/-- `scheduleNext()`: nothing when the session is not running, otherwise
one RNG draw for the micro spacing and a queued `stepOnce` tick. -/
def tschedNext (st : TSt) : TSt :=
  if st.running = false then st
  else { st with rng := (rngNext st.rng).1, pending := st.pending ++ [PCB.step] }

/-- `chars[idx]`, honouring the RTL reversal. -/
def charAt (cfg : SimCfg) (i : ℕ) : Char :=
  if cfg.isRTL then cfg.chars.getD (cfg.chars.length - 1 - i) ' '
  else cfg.chars.getD i ' '

def isAsciiUpper (c : Char) : Bool := decide ('A' ≤ c) && decide (c ≤ 'Z')

/-- The RNG state after `charDelay(ch, …)` plus the `finalDelay` jitter
draw: one base-jitter draw, one draw each for the emotional micro-pauses
(only when the emotional guard holds, by `&&` short-circuit), one for the
uppercase hesitation, then the outer jitter draw. -/
def charDelayRng (cfg : SimCfg) (ch : Char) (s : ℕ) : ℕ :=
  let s1 := (rngNext s).1
  let s2 := if cfg.emotional < -(1/2) then (rngNext s1).1 else s1
  let s3 := if (6/10 : ℚ) < cfg.emotional then (rngNext s2).1 else s2
  let s4 := if isAsciiUpper ch = true then (rngNext s3).1 else s3
  (rngNext s4).1

/-- The ghost-typing burst: up to `n` further characters appended. -/
def ghostChars (cfg : SimCfg) (idx n : ℕ) : List Char :=
  (List.range n).filterMap (fun g =>
    if idx + g < cfg.chars.length then some (charAt cfg (idx + g)) else none)

/-- The tail of `stepOnce` past the ghost block: backspace correction,
next character, or the final think-time pause. -/
def stepMainPart (cfg : SimCfg) (st : TSt) : TSt :=
  if st.idx < cfg.chars.length then
    let ch := charAt cfg st.idx
    { st with rng := charDelayRng cfg ch st.rng,
              pending := st.pending ++ [PCB.charT ch] }
  else if st.sent = false then
    let p := rngNext st.rng
    { st with rng := p.1, pending := st.pending ++ [PCB.finalT] }
  else { st with running := false }

/-- `DEFAULT.backspaceChance * (1 - (personality.perfection ? 0.5 : 0))`. -/
def backChance (perfection : Bool) : ℚ :=
  (9/100) * (1 - (if perfection then 1/2 else 0))

def stepBackspacePart (cfg : SimCfg) (st : TSt) : TSt :=
  if 2 < st.idx then
    let p := rngNext st.rng
    if p.2 < backChance cfg.perfection then
      let q := rngNext p.1
      let del := 1 + jsFloorNat (q.2 * 2)
      let toDelete := min del st.typed.length
      let deleted := st.typed.drop (st.typed.length - toDelete)
      emitTE { st with typed := st.typed.take (st.typed.length - toDelete),
                       rng := q.1,
                       pending := st.pending ++ [PCB.retype deleted 0] }
        TEv.progress
    else stepMainPart cfg { st with rng := p.1 }
  else stepMainPart cfg st

/-- The ghost-typing block once its entry draw succeeded: burst-type a few
characters, emit one `progress`, then either pause (scheduling the ghost
resolution timer) or fall through to the rest of `stepOnce`. -/
def stepGhostTaken (cfg : SimCfg) (st : TSt) : TSt :=
  let gl := rngNext st.rng
  let ghostLen := max 1 (jsFloorNat (gl.2 * min 6 cfg.chars.length))
  let added := ghostChars cfg st.idx ghostLen
  let st1 := emitTE { st with typed := st.typed ++ added,
                              idx := min (st.idx + ghostLen) cfg.chars.length,
                              rng := gl.1 }
    TEv.progress
  let h := rngNext st1.rng
  if h.2 < 1/2 then
    let d := rngNext h.1
    tschedNext { st1 with paused := true, rng := d.1,
                          pending := st1.pending ++ [PCB.ghostT] }
  else stepBackspacePart cfg { st1 with rng := h.1 }

/-- `stepOnce()`. -/
def stepOnce (cfg : SimCfg) (st : TSt) : TSt :=
  if st.running = false then st
  else if st.paused = true then emitTE (tschedNext st) TEv.pause
  else if st.abandoned = true then emitTE { st with running := false } TEv.abandoned
  else if cfg.allowGhost = true then
    let g := rngNext st.rng
    if g.2 < (6/100) * (1 - cfg.fatigue) then stepGhostTaken cfg { st with rng := g.1 }
    else stepBackspacePart cfg { st with rng := g.1 }
  else stepBackspacePart cfg st

/-- Fire one pending callback body. -/
def firePCB (cfg : SimCfg) (st : TSt) : PCB → TSt
  | .step => stepOnce cfg st
  | .schedN => tschedNext st
  | .charT ch =>
    if st.running = false ∨ st.paused = true then tschedNext st
    else
      let st1 := emitTE { st with typed := st.typed ++ [ch], idx := st.idx + 1 }
        TEv.progress
      if ch = '.' ∨ ch = '!' ∨ ch = '?' then
        let p := rngNext st1.rng
        if p.2 < 42/100 then
          let q := rngNext p.1
          { st1 with rng := q.1, pending := st1.pending ++ [PCB.schedN] }
        else tschedNext { st1 with rng := p.1 }
      else tschedNext st1
  | .retype deleted rIdx =>
    if st.running = false then st
    else if deleted.length ≤ rIdx then tschedNext st
    else
      let st1 := emitTE { st with typed := st.typed ++ [deleted.getD rIdx ' '] }
        TEv.progress
      let p := rngNext st1.rng
      { st1 with rng := p.1, pending := st1.pending ++ [PCB.retype deleted (rIdx + 1)] }
  | .ghostT =>
    let p := rngNext st.rng
    { st with paused := false,
              abandoned := if p.2 < 1/4 then true else st.abandoned,
              rng := p.1 }
  | .finalT =>
    if st.running = false then st
    else if cfg.allowGhost = true then
      let p := rngNext st.rng
      if p.2 < (2/100) * (1 + cfg.fatigue) then
        emitTE { st with abandoned := true, running := false, rng := p.1 } TEv.abandoned
      else emitTE { st with sent := true, running := false, rng := p.1 } TEv.send
    else emitTE { st with sent := true, running := false } TEv.send
  | .intrT =>
    if st.running = false then st
    else emitTE { st with paused := false, abandoned := true, running := false }
      TEv.abandoned

/-- Apply one environment action: fire a pending timer (removing it from
the queue) or run a controller method. -/
def applyAct (cfg : SimCfg) (st : TSt) : TAct → TSt
  | .fire k =>
    match st.pending.get? k with
    | none => st
    | some cb => firePCB cfg { st with pending := st.pending.eraseIdx k } cb
  | .cancel => emitTE { st with running := false } TEv.stop
  | .interrupt =>
    if cfg.interruptable = false then st
    else
      let st1 := emitTE { st with interrupted := true, paused := true } TEv.pause
      let p := rngNext st1.rng
      { st1 with rng := p.1, pending := st1.pending ++ [PCB.intrT] }
  | .forceSend =>
    if st.sent = true then st
    else emitTE { st with running := false, sent := true } TEv.send
  | .pauseCtl flag => emitTE { st with paused := flag } TEv.pause

/-- The session right after `simulate` returns (main branch): `start`
emitted, the first scheduler tick queued. -/
def simStart (cfg : SimCfg) (seed : ℕ) : TSt :=
  tschedNext { idx := 0, typed := [], running := true, paused := false,
               abandoned := false, sent := false, interrupted := false,
               rng := seed, pending := [], trace := [TEv.start] }

def simRun (cfg : SimCfg) (seed : ℕ) (acts : List TAct) : TSt :=
  acts.foldl (applyAct cfg) (simStart cfg seed)

/-- The copy-paste fast path: `start` then a scheduled burst `send`;
`cancel`/`interrupt` are no-ops and `forceSend` emits an unguarded
`send`. -/
inductive CPAct where
  | fireBurst
  | cancel
  | interrupt
  | forceSend
deriving DecidableEq, Repr

structure CPSt where
  pendingBurst : Bool
  trace : List TEv
deriving Repr

def cpStart : CPSt := ⟨true, [TEv.start]⟩

def applyCP (st : CPSt) : CPAct → CPSt
  | .fireBurst => if st.pendingBurst then ⟨false, st.trace ++ [TEv.send]⟩ else st
  | .cancel => st
  | .interrupt => st
  | .forceSend => ⟨st.pendingBurst, st.trace ++ [TEv.send]⟩

def cpRun (acts : List CPAct) : CPSt := acts.foldl applyCP cpStart

/-- Does a trace contain a terminal event? -/
def hasTerminal (tr : List TEv) : Bool := tr.any TEv.isTerminal

def hasProg : List TEv → Bool
  | [] => false
  | e :: rest => (e == TEv.progress) || hasProg rest

/-- No `progress` event anywhere after a terminal event. -/
def noProgAfterTerm : List TEv → Bool
  | [] => true
  | e :: rest => (!(e.isTerminal && hasProg rest)) && noProgAfterTerm rest

/-- No event of any kind after a terminal event (so there is at most one
terminal event and, if present, it is last). -/
def noEventAfterTerm : List TEv → Bool
  | [] => true
  | e :: rest => (!(e.isTerminal && !rest.isEmpty)) && noEventAfterTerm rest

/-- The event-ordering contract claimed by the spec: `start` first,
exactly one terminal event, which comes last (hence no `progress` after
it). -/
def goodTrace (tr : List TEv) : Bool :=
  (tr.head? == some TEv.start) &&
    ((tr.filter TEv.isTerminal).length == 1) &&
    (match tr.getLast? with
     | some e => e.isTerminal
     | none => false)

/-- A three-character non-RTL session with every feature enabled. -/
def c4cfg : SimCfg :=
  { chars := ['h', 'e', 'y'], isRTL := false, allowGhost := true,
    interruptable := true, perfection := false, emotional := 0, fatigue := 0 }

/-! ## Theorems -/

theorem U32_eq_pow : U32 = 2 ^ 32 := by decide

theorem xor_lt_u32 {x y : ℕ} (hx : x < U32) (hy : y < U32) : x ^^^ y < U32 := by
  rw [U32_eq_pow] at *
  exact Nat.bitwise_lt hx hy

theorem xorshiftShl_lt (m x : ℕ) : xorshiftShl m x < U32 :=
  Nat.mod_lt _ (by decide)

theorem xorshiftShr17_lt (x : ℕ) : xorshiftShr17 x < U32 :=
  Nat.mod_lt _ (by decide)

theorem xorshift32Step_lt (x : ℕ) : xorshift32Step x < U32 :=
  xorshiftShl_lt _ _

theorem xorshift32Init_lt (seed : ℕ) : xorshift32Init seed < U32 := by
  unfold xorshift32Init
  split
  · decide
  · exact Nat.mod_lt _ (by decide)

theorem xorshift32Init_ne_zero (seed : ℕ) : xorshift32Init seed ≠ 0 := by
  unfold xorshift32Init
  split
  · decide
  · assumption

/-- A multiplicative xorshift stage fixes only `0`: if `x * M ≡ x (mod 2^32)`
with `M - 1` odd (hence coprime to `2^32`) then `x = 0`. -/
theorem mul_stage_fixed {x M : ℕ} (hx : x < U32) (hM : 1 ≤ M)
    (hcop : Nat.Coprime U32 (M - 1)) (h : x * M % U32 = x) : x = 0 := by
  have hmod : x % U32 = x := Nat.mod_eq_of_lt hx
  have hcong : x ≡ x * M [MOD U32] := by
    unfold Nat.ModEq
    rw [hmod, h]
  have hle : x ≤ x * M := Nat.le_mul_of_pos_right x hM
  have hdvd : U32 ∣ x * M - x := (Nat.modEq_iff_dvd' hle).mp hcong
  have hfac : x * M - x = x * (M - 1) := by
    cases M with
    | zero => simp
    | succ m =>
      simp only [Nat.succ_sub_one, Nat.mul_add, Nat.mul_one]
      omega
  rw [hfac] at hdvd
  have hdx : U32 ∣ x := hcop.dvd_of_dvd_mul_right hdvd
  exact Nat.eq_zero_of_dvd_of_lt hdx hx

theorem xorshiftShl_ne_zero {m x : ℕ} (hx : x < U32) (hx0 : x ≠ 0)
    (hm : 1 ≤ m) (hcop : Nat.Coprime U32 (m - 1)) : xorshiftShl m x ≠ 0 := by
  intro h
  unfold xorshiftShl at h
  have hxor_lt : x ^^^ (x * m % U32) < U32 :=
    xor_lt_u32 hx (Nat.mod_lt _ (by decide))
  rw [Nat.mod_eq_of_lt hxor_lt] at h
  have hxe : x = x * m % U32 := Nat.xor_eq_zero.mp h
  exact hx0 (mul_stage_fixed hx hm hcop hxe.symm)

theorem xorshiftShr17_ne_zero {x : ℕ} (hx : x < U32) (hx0 : x ≠ 0) :
    xorshiftShr17 x ≠ 0 := by
  intro h
  unfold xorshiftShr17 at h
  have hxor_lt : x ^^^ (x / 131072) < U32 :=
    xor_lt_u32 hx (lt_of_le_of_lt (Nat.div_le_self _ _) hx)
  rw [Nat.mod_eq_of_lt hxor_lt] at h
  have hxe : x = x / 131072 := Nat.xor_eq_zero.mp h
  have hlt : x / 131072 < x := Nat.div_lt_self (Nat.pos_of_ne_zero hx0) (by decide)
  omega

theorem xorshift32Step_ne_zero {x : ℕ} (hx : x < U32) (hx0 : x ≠ 0) :
    xorshift32Step x ≠ 0 := by
  unfold xorshift32Step
  exact xorshiftShl_ne_zero (xorshiftShr17_lt _)
    (xorshiftShr17_ne_zero (xorshiftShl_lt _ _)
      (xorshiftShl_ne_zero hx hx0 (by decide) (by decide)))
    (by decide) (by decide)

theorem xorshift32_iter_ne_zero (seed n : ℕ) :
    (xorshift32Step)^[n] (xorshift32Init seed) ≠ 0 := by
  have key : ∀ m, (xorshift32Step)^[m] (xorshift32Init seed) < U32 ∧
      (xorshift32Step)^[m] (xorshift32Init seed) ≠ 0 := by
    intro m
    induction m with
    | zero => exact ⟨xorshift32Init_lt seed, xorshift32Init_ne_zero seed⟩
    | succ k ih =>
      rw [Function.iterate_succ_apply']
      exact ⟨xorshift32Step_lt _, xorshift32Step_ne_zero ih.1 ih.2⟩
  exact (key n).2

/-- C7: the claim that *every* seeded stream in the system remaps seed `0`
to one fixed non-zero constant is false.  `makeRng` (typing-engine,
people-store, message-bank) substitutes a fresh `Math.random()` fallback,
so two constructions from seed `0` can disagree already on their initial
state and first output. -/
theorem claim_C7_counterexample :
    ¬ (∀ f1 f2 : ℕ, makeRngInit 0 f1 = makeRngInit 0 f2 ∧
        (rngNext (makeRngInit 0 f1)).2 = (rngNext (makeRngInit 0 f2)).2) := by
  intro h
  have h12 := (h 1 2).1
  exact absurd h12 (by decide)

/-- C7 amended: the `xorshift32` constructor used by message-pool and
synthetic-people does remap seed `0` to the fixed non-zero constant
`0x811c9dc5` (so the seed-0 stream is the same on every construction), and
no stream it produces ever reaches the degenerate all-zero state; the
`makeRng` constructor used by typing-engine, people-store and message-bank
instead substitutes a per-construction random fallback for seed `0`. -/
theorem claim_C7_amended :
    xorshift32Init 0 = 0x811c9dc5 ∧
    (∀ seed n, (xorshift32Step)^[n] (xorshift32Init seed) ≠ 0) ∧
    (∀ fallback, makeRngInit 0 fallback = fallback % U32) :=
  ⟨by decide, xorshift32_iter_ne_zero, fun fallback => by simp [makeRngInit]⟩

theorem rngNext_nonneg (s : ℕ) : 0 ≤ (rngNext s).2 := by
  unfold rngNext
  positivity

theorem rngNext_lt_one (s : ℕ) : (rngNext s).2 < 1 := by
  unfold rngNext
  rw [div_lt_one (by norm_num [U32])]
  exact_mod_cast xorshift32Step_lt s

theorem jsFloorNat_lt {u : ℚ} {m : ℕ} (h0 : 0 ≤ u) (h1 : u < 1) (hm : 0 < m) :
    jsFloorNat (u * m) < m := by
  unfold jsFloorNat
  have hmq : (0:ℚ) < (m:ℚ) := by exact_mod_cast hm
  have hlt : u * m < (m:ℚ) := by
    calc u * m < 1 * m := by exact mul_lt_mul_of_pos_right h1 hmq
    _ = m := one_mul _
  have hfl : ⌊u * (m:ℚ)⌋ < (m : ℤ) := Int.floor_lt.mpr (by exact_mod_cast hlt)
  omega

theorem replyDraw_fst_spec (s i : ℕ) (rf : ℚ) (r : String)
    (h : (replyDraw s i rf).1 = some r) :
    ∃ j : ℕ, j < i ∧ r = "msg_" ++ toString (j + 1) := by
  simp only [replyDraw] at h
  split at h
  case isTrue hc =>
    simp only [Option.some.injEq] at h
    have hm : 0 < min 500 (i - 2) := by omega
    have hoff : jsFloorNat ((rngNext (rngNext s).1).2 * ((min 500 (i - 2) : ℕ) : ℚ)) <
        min 500 (i - 2) :=
      jsFloorNat_lt (rngNext_nonneg _) (rngNext_lt_one _) hm
    refine ⟨i - (2 + jsFloorNat ((rngNext (rngNext s).1).2 * ((min 500 (i - 2) : ℕ) : ℚ))) - 1,
      by omega, ?_⟩
    rw [← h]
    have : i - (2 + jsFloorNat ((rngNext (rngNext s).1).2 * ((min 500 (i - 2) : ℕ) : ℚ))) - 1 + 1 =
        i - (2 + jsFloorNat ((rngNext (rngNext s).1).2 * ((min 500 (i - 2) : ℕ) : ℚ))) := by
      omega
    rw [this]
  case isFalse hc =>
    simp at h

theorem genMessage_replyTo (i : ℕ) (opts : GenOpts) (people : List Sender) (now : ℤ) :
    (genMessageForIndex i opts people now).replyTo =
      (replyDraw (genMsgCore i opts people).s i opts.replyFraction).1 := rfl

/-- C3: every generated reply target names a message with a strictly
smaller index.  Message ids are `msg_(k+1)` for message index `k`, so the
referenced index `j` satisfies `0 ≤ j < i` and `replyTo` is its id. -/
theorem claim_C3_reply_earlier :
    ∀ (i : ℕ) (opts : GenOpts) (people : List Sender) (now : ℤ) (r : String),
      (genMessageForIndex i opts people now).replyTo = some r →
      ∃ j : ℕ, j < i ∧ r = "msg_" ++ toString (j + 1) := by
  intro i opts people now r h
  rw [genMessage_replyTo] at h
  exact replyDraw_fst_spec _ i _ r h

theorem claim_C3_reply_earlier_witness :
    (genMessageForIndex 26 defaultGenOpts [] 0).replyTo = some "msg_3" ∧
    ∃ j : ℕ, j < 26 ∧ "msg_3" = "msg_" ++ toString (j + 1) :=
  ⟨by decide, claim_C3_reply_earlier 26 defaultGenOpts [] 0 "msg_3" (by decide)⟩

theorem msgTime_shift (now : ℤ) (spanMs frac u : ℚ) :
    msgTime now spanMs frac u = now + msgTime 0 spanMs frac u := by
  unfold msgTime jsRound
  have h : ((now : ℤ) : ℚ) - spanMs + frac * spanMs + ((u - 1/2) * 3600000) + 1/2 =
      (((0 : ℤ) : ℚ) - spanMs + frac * spanMs + ((u - 1/2) * 3600000) + 1/2) + ((now : ℤ) : ℚ) := by
    push_cast
    ring
  rw [h, Int.floor_add_int]
  ring

/-- C1: the claim that a generated message is byte-identical for a fixed
`(seed, index, options)` triple across repeated calls and process restarts
is false: the `time` field is anchored to `Date.now()`, so two calls at
different wall-clock instants disagree. -/
theorem claim_C1_counterexample :
    ¬ (∀ now now' : ℤ,
        genMessageForIndex 0 defaultGenOpts [] now = genMessageForIndex 0 defaultGenOpts [] now') :=
  fun h => absurd (h 0 1) (by decide)

/-- C1 amended: for fixed `(seed, index, options)` and a fixed ambient
people pool, every field except `time` is byte-identical across repeated
calls and process restarts (the record with `time` erased is independent of
the clock), and the `time` field shifts exactly with the `Date.now()`
reading. -/
theorem claim_C1_amended :
    (∀ (i : ℕ) (opts : GenOpts) (people : List Sender) (now now' : ℤ),
      Msg.eraseTime (genMessageForIndex i opts people now) =
        Msg.eraseTime (genMessageForIndex i opts people now')) ∧
    (∀ (i : ℕ) (opts : GenOpts) (people : List Sender) (now : ℤ),
      (genMessageForIndex i opts people now).time =
        now + (genMessageForIndex i opts people 0).time) :=
  ⟨fun _ _ _ _ _ => rfl, fun i opts people now => msgTime_shift now _ _ _⟩

theorem poolFold_length (opts : GenOpts) (people : List Sender) (now : ℤ) :
    ∀ n : ℕ, (((List.range n).foldl (poolStep opts people now) ([], [])).1).length = n := by
  intro n
  induction n with
  | zero => rfl
  | succ k ih =>
    rw [List.range_succ, List.foldl_append]
    simp only [List.foldl_cons, List.foldl_nil, poolStep, List.length_append]
    rw [ih]
    rfl

theorem poolFold_get (opts : GenOpts) (people : List Sender) (now : ℤ) :
    ∀ (n i : ℕ), i < n →
      (((List.range n).foldl (poolStep opts people now) ([], [])).1).get? i =
        some (poolMsgAt opts people now i) := by
  intro n
  induction n with
  | zero => omega
  | succ k ih =>
    intro i hi
    rw [List.range_succ, List.foldl_append]
    simp only [List.foldl_cons, List.foldl_nil]
    by_cases hik : i < k
    · have hlen : i < (((List.range k).foldl (poolStep opts people now) ([], [])).1).length := by
        rw [poolFold_length]
        exact hik
      rw [show (poolStep opts people now ((List.range k).foldl (poolStep opts people now) ([], [])) k).1 =
          (((List.range k).foldl (poolStep opts people now) ([], [])).1 ++
            [{ genMessageForIndex k opts people now with
                text := dedupeText opts people now
                  (((List.range k).foldl (poolStep opts people now) ([], [])).2) k 6 0
                  (genMessageForIndex k opts people now).text }]) from rfl]
      rw [List.get?_append hlen]
      exact ih i hik
    · have hik2 : i = k := by omega
      subst hik2
      rw [show (poolStep opts people now ((List.range i).foldl (poolStep opts people now) ([], [])) i).1 =
          (((List.range i).foldl (poolStep opts people now) ([], [])).1 ++
            [{ genMessageForIndex i opts people now with
                text := dedupeText opts people now
                  (((List.range i).foldl (poolStep opts people now) ([], [])).2) i 6 0
                  (genMessageForIndex i opts people now).text }]) from rfl]
      rw [List.get?_append_right (by rw [poolFold_length])]
      rw [poolFold_length]
      simp only [Nat.sub_self, List.get?_cons_zero]
      rfl

theorem dedupeText_no_collision (opts : GenOpts) (people : List Sender) (now : ℤ)
    (lru : List String) (i : ℕ) (t : String)
    (h : lruHas lru (contentHash t) = false) :
    dedupeText opts people now lru i 6 0 t = t := by
  unfold dedupeText
  rw [h]
  simp

theorem msg_text_eta (m : Msg) : { m with text := m.text } = m := rfl

theorem clampNat_ge (v a b : ℕ) : a ≤ clampNat v a b := le_max_left _ _

theorem lruStateAt_succ (opts : GenOpts) (people : List Sender) (now : ℤ) (i : ℕ) :
    lruStateAt opts people now (i + 1) =
      lruPush 2048 (lruStateAt opts people now i)
        (contentHash (dedupeText opts people now (lruStateAt opts people now i) i 6 0
          (genMessageForIndex i opts people now).text)) := by
  unfold lruStateAt
  rw [List.range_succ, List.foldl_append]
  rfl

set_option maxRecDepth 5000 in
theorem lruC2_1 : lruStateAt poolOptsC2 [] 0 1 = ["9b40d609"] := by
  rw [show (1 : ℕ) = 0 + 1 from rfl, lruStateAt_succ,
    show lruStateAt poolOptsC2 [] 0 0 = [] from rfl]
  decide

set_option maxRecDepth 5000 in
theorem lruC2_text1 :
    (genMessageForIndex 1 poolOptsC2 [] 0).text =
      "now check hold sell watch 💎 XRP check nice hold wait sell sell rekt yikes sell LINK now watch yikes ADA hold ⚠️ hold buy" := by
  decide

set_option maxRecDepth 5000 in
theorem lruC2_units1 :
    utf16Units "now check hold sell watch 💎 XRP check nice hold wait sell sell rekt yikes sell LINK now watch yikes ADA hold ⚠️ hold buy" =
      [110, 111, 119, 32, 99, 104, 101, 99, 107, 32, 104, 111, 108, 100, 32, 115, 101, 108, 108, 32, 119, 97, 116, 99, 104, 32, 55357, 56462, 32, 88, 82, 80, 32, 99, 104, 101, 99, 107, 32, 110, 105, 99, 101, 32, 104, 111, 108, 100, 32, 119, 97, 105, 116, 32, 115, 101, 108, 108, 32, 115, 101, 108, 108, 32, 114, 101, 107, 116, 32, 121, 105, 107, 101, 115, 32, 115, 101, 108, 108, 32, 76, 73, 78, 75, 32, 110, 111, 119, 32, 119, 97, 116, 99, 104, 32, 121, 105, 107, 101, 115, 32, 65, 68, 65, 32, 104, 111, 108, 100, 32, 9888, 65039, 32, 104, 111, 108, 100, 32, 98, 117, 121] := by
  decide

set_option maxRecDepth 5000 in
theorem lruC2_fold1 :
    ([110, 111, 119, 32, 99, 104, 101, 99, 107, 32, 104, 111, 108, 100, 32, 115, 101, 108, 108, 32, 119, 97, 116, 99, 104, 32, 55357, 56462, 32, 88, 82, 80, 32, 99, 104, 101, 99, 107, 32, 110, 105, 99, 101, 32, 104, 111, 108, 100, 32, 119, 97, 105, 116, 32, 115, 101, 108, 108, 32, 115, 101, 108] : List ℕ).foldl hashStep 2166136261 = -77322087 := by
  decide

set_option maxRecDepth 5000 in
theorem lruC2_hash1 :
    contentHash "now check hold sell watch 💎 XRP check nice hold wait sell sell rekt yikes sell LINK now watch yikes ADA hold ⚠️ hold buy" =
      "8c7846fb" := by
  rw [contentHash, lruC2_units1,
    show ([110, 111, 119, 32, 99, 104, 101, 99, 107, 32, 104, 111, 108, 100, 32, 115, 101, 108, 108, 32, 119, 97, 116, 99, 104, 32, 55357, 56462, 32, 88, 82, 80, 32, 99, 104, 101, 99, 107, 32, 110, 105, 99, 101, 32, 104, 111, 108, 100, 32, 119, 97, 105, 116, 32, 115, 101, 108, 108, 32, 115, 101, 108, 108, 32, 114, 101, 107, 116, 32, 121, 105, 107, 101, 115, 32, 115, 101, 108, 108, 32, 76, 73, 78, 75, 32, 110, 111, 119, 32, 119, 97, 116, 99, 104, 32, 121, 105, 107, 101, 115, 32, 65, 68, 65, 32, 104, 111, 108, 100, 32, 9888, 65039, 32, 104, 111, 108, 100, 32, 98, 117, 121] : List ℕ) =
      [110, 111, 119, 32, 99, 104, 101, 99, 107, 32, 104, 111, 108, 100, 32, 115, 101, 108, 108, 32, 119, 97, 116, 99, 104, 32, 55357, 56462, 32, 88, 82, 80, 32, 99, 104, 101, 99, 107, 32, 110, 105, 99, 101, 32, 104, 111, 108, 100, 32, 119, 97, 105, 116, 32, 115, 101, 108, 108, 32, 115, 101, 108] ++ [108, 32, 114, 101, 107, 116, 32, 121, 105, 107, 101, 115, 32, 115, 101, 108, 108, 32, 76, 73, 78, 75, 32, 110, 111, 119, 32, 119, 97, 116, 99, 104, 32, 121, 105, 107, 101, 115, 32, 65, 68, 65, 32, 104, 111, 108, 100, 32, 9888, 65039, 32, 104, 111, 108, 100, 32, 98, 117, 121] from rfl,
    List.foldl_append, lruC2_fold1]
  decide

set_option maxRecDepth 5000 in
theorem lruC2_2 : lruStateAt poolOptsC2 [] 0 2 = ["9b40d609", "8c7846fb"] := by
  rw [show (2 : ℕ) = 1 + 1 from rfl, lruStateAt_succ, lruC2_1, lruC2_text1,
    dedupeText_no_collision _ _ _ _ _ _ (by rw [lruC2_hash1]; decide), lruC2_hash1]
  decide

set_option maxRecDepth 5000 in
theorem lruC2_3 :
    lruStateAt poolOptsC2 [] 0 3 = ["9b40d609", "8c7846fb", "19d6ba6c"] := by
  rw [show (3 : ℕ) = 2 + 1 from rfl, lruStateAt_succ, lruC2_2]
  decide

set_option maxRecDepth 5000 in
theorem lruC2_4 :
    lruStateAt poolOptsC2 [] 0 4 =
      ["9b40d609", "8c7846fb", "19d6ba6c", "bd71d0e3"] := by
  rw [show (4 : ℕ) = 3 + 1 from rfl, lruStateAt_succ, lruC2_3]
  decide

set_option maxRecDepth 5000 in
/-- C2: the claim that the lazily generated window equals the materialized
pool slice for every in-range start and count is false: `generatePool`
rewrites texts whose fingerprint collides with the dedupe LRU, while the
lazy `getRange` does not.  With seed 4004 and size 50 the collision fires
at pool index 4, so the lazily generated window `(start, count) = (4, 1)`
differs from the corresponding slice of the materialized pool. -/
theorem claim_C2_counterexample :
    ¬ ((getRangeLazy poolOptsC2 [] 0 4 1).get? 0 =
        (generatePoolMsgs poolOptsC2 [] 0).get? 4) := by
  have hpool : (generatePoolMsgs poolOptsC2 [] 0).get? 4 =
      some (poolMsgAt poolOptsC2 [] 0 4) := by
    simp only [generatePoolMsgs]
    rw [show clampNat poolOptsC2.size 50 500000 = poolOptsC2.size from rfl,
        show ({ poolOptsC2 with size := poolOptsC2.size } : GenOpts) = poolOptsC2 from rfl]
    exact poolFold_get poolOptsC2 [] 0 poolOptsC2.size 4 (by decide)
  rw [hpool]
  simp only [poolMsgAt]
  rw [lruC2_4]
  decide

/-- C2 amended: at every index where `generatePool`'s duplicate-avoidance
did not rewrite the text (its fingerprint was not in the LRU window when
the index was materialized), the lazily generated window agrees with the
materialized pool; the two disagree exactly on dedupe-rewritten indices. -/
theorem claim_C2_amended :
    ∀ (opts : GenOpts) (people : List Sender) (now : ℤ) (start count k : ℕ),
      clampNat opts.size 50 500000 = opts.size →
      start + count ≤ opts.size →
      k < count →
      lruHas (lruStateAt opts people now (start + k))
        (contentHash (genMessageForIndex (start + k) opts people now).text) = false →
      (getRangeLazy opts people now start count).get? k =
        (generatePoolMsgs opts people now).get? (start + k) := by
  intro opts people now start count k hclamp hrange hk hnc
  have hsz : 50 ≤ opts.size := by
    have := clampNat_ge opts.size 50 500000
    omega
  -- the lazy side
  have hstart : min start (opts.size - 1) = start := by omega
  have hcount : count ⊓ (opts.size - start ⊓ (opts.size - 1)) = count := by
    rw [show start ⊓ (opts.size - 1) = start from hstart]
    omega
  have hlazy : (getRangeLazy opts people now start count).get? k =
      some (genMessageForIndex (start + k) opts people now) := by
    simp only [getRangeLazy]
    rw [hcount, List.get?_map, List.get?_range hk]
    rw [show start ⊓ (opts.size - 1) = start from hstart]
    rfl
  -- the materialized side
  have hpool : (generatePoolMsgs opts people now).get? (start + k) =
      some (poolMsgAt opts people now (start + k)) := by
    simp only [generatePoolMsgs]
    rw [hclamp, show ({ opts with size := opts.size } : GenOpts) = opts from rfl]
    exact poolFold_get opts people now opts.size (start + k) (by omega)
  rw [hlazy, hpool]
  simp only [poolMsgAt]
  rw [dedupeText_no_collision _ _ _ _ _ _ hnc]

theorem claim_C2_amended_witness :
    (clampNat poolOpts50.size 50 500000 = poolOpts50.size ∧ 0 + 1 ≤ poolOpts50.size ∧ 0 < 1 ∧
      lruHas (lruStateAt poolOpts50 [] 0 (0 + 0))
        (contentHash (genMessageForIndex (0 + 0) poolOpts50 [] 0).text) = false) ∧
    (getRangeLazy poolOpts50 [] 0 0 1).get? 0 = (generatePoolMsgs poolOpts50 [] 0).get? (0 + 0) :=
  ⟨⟨by decide, by decide, by decide, by decide⟩,
   claim_C2_amended poolOpts50 [] 0 0 1 0 (by decide) (by decide) (by decide) (by decide)⟩

/-- C6: the claim that every out-of-range index yields the not-found result
is false for the message-pool variant: with no materialized pool and a
declared size of 100, `getMessageByIndex(100)` generates and returns a
message instead of `null` (only negative indices are rejected in the lazy
branch). -/
theorem claim_C6_counterexample :
    ¬ (∀ i : ℤ, i < 0 ∨ (poolOpts100.size : ℤ) ≤ i →
        getMessageByIndexPool [] poolOpts100 [] 0 i = none) :=
  fun h => absurd (h 100 (Or.inr (by decide))) (by decide)

/-- C6 amended: with a materialized pool both variants return `null` for
every out-of-range index; without one, the message-pool variant returns
`null` only for negative indices and returns a generated message for every
`i ≥ 0` (even `i ≥ declaredSize`), while the typing-engine variant returns
`null` whenever no pool is materialized.  Generation itself is a total
function of its inputs, so valid indices never fail. -/
theorem claim_C6_amended :
    (∀ (msgs : List Msg) (opts : GenOpts) (people : List Sender) (now : ℤ) (i : ℤ),
      msgs ≠ [] → (i < 0 ∨ (msgs.length : ℤ) ≤ i) →
      getMessageByIndexPool msgs opts people now i = none) ∧
    (∀ (opts : GenOpts) (people : List Sender) (now : ℤ) (i : ℤ), i < 0 →
      getMessageByIndexPool [] opts people now i = none) ∧
    (∀ (opts : GenOpts) (people : List Sender) (now : ℤ) (i : ℤ), 0 ≤ i →
      (getMessageByIndexPool [] opts people now i).isSome = true) ∧
    (∀ (msgs : List Msg) (i : ℤ), msgs = [] ∨ i < 0 ∨ (msgs.length : ℤ) ≤ i →
      getMessageByIndexTE msgs i = none) := by
  refine ⟨?_, ?_, ?_, ?_⟩
  · intro msgs opts people now i hne hout
    unfold getMessageByIndexPool
    rw [if_pos (by simpa [List.length_eq_zero] using hne), if_pos hout]
  · intro opts people now i hi
    unfold getMessageByIndexPool
    rw [if_neg (by simp), if_pos hi]
  · intro opts people now i hi
    unfold getMessageByIndexPool
    rw [if_neg (by simp), if_neg (by omega)]
    rfl
  · intro msgs i hout
    unfold getMessageByIndexTE
    rcases hout with h | h | h
    · rw [if_pos (by simp [h])]
    · by_cases hz : msgs.length = 0
      · rw [if_pos hz]
      · rw [if_neg hz, if_pos (Or.inl h)]
    · by_cases hz : msgs.length = 0
      · rw [if_pos hz]
      · rw [if_neg hz, if_pos (Or.inr h)]

theorem claim_C6_amended_witness :
    getMessageByIndexPool [genMessageForIndex 0 defaultGenOpts [] 0] defaultGenOpts [] 0 5 = none ∧
    getMessageByIndexPool [] defaultGenOpts [] 0 (-1) = none ∧
    (getMessageByIndexPool [] defaultGenOpts [] 0 7).isSome = true ∧
    getMessageByIndexTE [] 3 = none :=
  ⟨claim_C6_amended.1 [genMessageForIndex 0 defaultGenOpts [] 0] defaultGenOpts [] 0 5
      (List.cons_ne_nil _ _) (Or.inr (by simp)),
   claim_C6_amended.2.1 defaultGenOpts [] 0 (-1) (by decide),
   claim_C6_amended.2.2.1 defaultGenOpts [] 0 7 (by decide),
   claim_C6_amended.2.2.2 [] 3 (Or.inl rfl)⟩

theorem clampQ_nonneg (v : ℚ) : 0 ≤ clampQ v 0 1 := le_max_left _ _

theorem clampQ_eq_self {v : ℚ} (h0 : 0 ≤ v) (h1 : v ≤ 1) : clampQ v 0 1 = v := by
  unfold clampQ
  rw [min_eq_right h1, max_eq_right h0]

theorem clampQ_le_one (v : ℚ) : clampQ v 0 1 ≤ 1 :=
  max_le (by norm_num) (min_le_left _ _)

theorem fatigueGet_nonneg (d : FatigueData) (pid : String) (now : ℤ) :
    0 ≤ fatigueGet d pid now := by
  unfold fatigueGet
  cases fatigueLookup d pid with
  | none => norm_num
  | some item => exact le_max_left _ _

theorem fatigueGet_le_one (d : FatigueData) (pid : String) (now : ℤ) :
    fatigueGet d pid now ≤ 1 := by
  unfold fatigueGet
  cases fatigueLookup d pid with
  | none => norm_num
  | some item => exact max_le (by norm_num) (clampQ_le_one _)

theorem fatigueLookup_cons_self (d : FatigueData) (pid : String) (e : FatigueEntry) :
    fatigueLookup ((pid, e) :: d) pid = some e := by
  unfold fatigueLookup
  simp [List.find?]

/-- Reading back immediately (no elapsed time) returns the stored value
clamped into `[0,1]`. -/
theorem fatigueGet_cons_now (d : FatigueData) (pid : String) (v : ℚ) (now : ℤ) :
    fatigueGet ((pid, ⟨v, now⟩) :: d) pid now = max 0 (clampQ v 0 1) := by
  unfold fatigueGet
  rw [fatigueLookup_cons_self]
  simp

/-- C9: every fatigue value read by `FatigueStore.get` lies in `[0, 1]`
(missing entries read as `0`, recovery is clamped below by `0`), and every
entry stored by `FatigueStore.increase` or `FatigueStore.set` carries a value
in `[0, 1]`. -/
theorem claim_C9_fatigue_bounds :
    (∀ (d : FatigueData) (pid : String) (now : ℤ),
      0 ≤ fatigueGet d pid now ∧ fatigueGet d pid now ≤ 1) ∧
    (∀ (d : FatigueData) (pid : String) (amount : ℚ) (now : ℤ), ∃ e,
      fatigueLookup (fatigueIncrease d pid amount now) pid = some e ∧
      0 ≤ e.v ∧ e.v ≤ 1) ∧
    (∀ (d : FatigueData) (pid : String) (v : ℚ) (now : ℤ), ∃ e,
      fatigueLookup (fatigueSet d pid v now) pid = some e ∧
      0 ≤ e.v ∧ e.v ≤ 1) := by
  refine ⟨fun d pid now => ⟨fatigueGet_nonneg d pid now, fatigueGet_le_one d pid now⟩,
    fun d pid amount now => ⟨_, fatigueLookup_cons_self _ _ _, ?_, ?_⟩,
    fun d pid v now => ⟨_, fatigueLookup_cons_self _ _ _, ?_, ?_⟩⟩
  · exact clampQ_nonneg _
  · exact clampQ_le_one _
  · exact clampQ_nonneg _
  · exact clampQ_le_one _

/-- C8: the claim that successive sends without elapsed real time do not
*decrease* measured typing speed is false for speed read as words per
minute: one send raises fatigue from `0` to `0.06`, and the WPM computation
strictly decreases (GENERIC role multiplier `0.92`, noon, desktop, neutral
emotion). -/
theorem claim_C8_counterexample :
    ¬ (computeBaseWpm (92/100) 0 12 false (fatigueGet [] "m_1" 0) 0 ≤
       computeBaseWpm (92/100) 0 12 false
         (fatigueGet (fatigueIncrease [] "m_1" (6/100) 0) "m_1" 0) 0) := by
  rw [show fatigueIncrease [] "m_1" (6/100) 0 =
      [("m_1", ⟨6/100, 0⟩)] from by norm_num [fatigueIncrease, fatigueGet,
        fatigueLookup, clampQ]]
  norm_num [fatigueGet, fatigueLookup, clampQ, computeBaseWpm, baseWPM,
    wpmAfterRole, wpmAfterPersonality, wpmAfterNight, wpmAfterMobile,
    wpmAfterFatigue, wpmAfterEmotion, List.find?]

/-- C8 amended: successive sends by the same actor without elapsed real time
do not *increase* measured typing speed: fatigue recorded by
`FatigueStore.increase` is non-decreasing when read back with no elapsed
time, and the typing-speed computation is antitone in fatigue (given
non-negative role and personality multipliers), so WPM is non-increasing
send to send. -/
theorem claim_C8_amended :
    (∀ (d : FatigueData) (pid : String) (amount : ℚ) (now : ℤ),
      0 ≤ amount →
      fatigueGet d pid now ≤ fatigueGet (fatigueIncrease d pid amount now) pid now) ∧
    (∀ (speedMult wpmMult : ℚ) (hour : ℕ) (mobile : Bool) (f f₂ emo : ℚ),
      0 ≤ speedMult → 0 ≤ wpmMult → f ≤ f₂ →
      computeBaseWpm speedMult wpmMult hour mobile f₂ emo ≤
      computeBaseWpm speedMult wpmMult hour mobile f emo) := by
  constructor
  · intro d pid amount now hamt
    have hold1 : fatigueGet d pid now ≤ 1 := fatigueGet_le_one d pid now
    have hamt2 : 0 ≤ (if amount = 0 then fatigueIncreasePerSession else amount) := by
      split
      · norm_num [fatigueIncreasePerSession]
      · exact hamt
    have hrw : fatigueIncrease d pid amount now =
        (pid, ⟨clampQ (fatigueGet d pid now +
          (if amount = 0 then fatigueIncreasePerSession else amount)) 0 1, now⟩) :: d := rfl
    rw [hrw, fatigueGet_cons_now]
    have hv0 : 0 ≤ clampQ (fatigueGet d pid now +
        (if amount = 0 then fatigueIncreasePerSession else amount)) 0 1 := clampQ_nonneg _
    have hv1 : clampQ (fatigueGet d pid now +
        (if amount = 0 then fatigueIncreasePerSession else amount)) 0 1 ≤ 1 := clampQ_le_one _
    rw [clampQ_eq_self hv0 hv1]
    have hstep : fatigueGet d pid now ≤ clampQ (fatigueGet d pid now +
        (if amount = 0 then fatigueIncreasePerSession else amount)) 0 1 :=
      le_trans (le_min hold1 (by linarith)) (le_max_right _ _)
    exact le_trans hstep (le_max_right _ _)
  · intro speedMult wpmMult hour mobile f f₂ emo hs hw hf
    have hbase : (0:ℚ) ≤ baseWPM := by norm_num [baseWPM]
    have hb1 : 0 ≤ wpmAfterRole speedMult := mul_nonneg hbase hs
    have hb2 : 0 ≤ wpmAfterPersonality (wpmAfterRole speedMult) wpmMult := by
      unfold wpmAfterPersonality
      split
      · exact hb1
      · exact mul_nonneg hb1 hw
    have hb3 : 0 ≤ wpmAfterNight (wpmAfterPersonality (wpmAfterRole speedMult) wpmMult) hour := by
      unfold wpmAfterNight
      split
      · exact mul_nonneg hb2 (by norm_num [nightSlowdown])
      · exact hb2
    have hb4 : 0 ≤ wpmAfterMobile
        (wpmAfterNight (wpmAfterPersonality (wpmAfterRole speedMult) wpmMult) hour) mobile := by
      unfold wpmAfterMobile
      split
      · exact mul_nonneg hb3 (by norm_num [mobileSlowdown])
      · exact hb3
    have hb5 : wpmAfterFatigue (wpmAfterMobile
          (wpmAfterNight (wpmAfterPersonality (wpmAfterRole speedMult) wpmMult) hour) mobile) f₂ ≤
        wpmAfterFatigue (wpmAfterMobile
          (wpmAfterNight (wpmAfterPersonality (wpmAfterRole speedMult) wpmMult) hour) mobile) f := by
      unfold wpmAfterFatigue
      exact mul_le_mul_of_nonneg_left (by linarith) hb4
    unfold computeBaseWpm wpmAfterEmotion
    split
    · exact mul_le_mul_of_nonneg_right hb5 (by norm_num)
    · split
      · exact mul_le_mul_of_nonneg_right hb5 (by norm_num)
      · exact hb5

theorem claim_C8_amended_witness :
    ((0:ℚ) ≤ 6/100 ∧
      fatigueGet [] "m_1" 0 ≤
        fatigueGet (fatigueIncrease [] "m_1" (6/100) 0) "m_1" 0) ∧
    ((0:ℚ) ≤ 92/100 ∧ (0:ℚ) ≤ 0 ∧ (0:ℚ) ≤ 6/100 ∧
      computeBaseWpm (92/100) 0 12 false (6/100) 0 ≤
        computeBaseWpm (92/100) 0 12 false 0 0) :=
  ⟨⟨by norm_num, claim_C8_amended.1 [] "m_1" (6/100) 0 (by norm_num)⟩,
   ⟨by norm_num, le_refl 0, by norm_num,
    claim_C8_amended.2 (92/100) 0 12 false 0 (6/100) 0 (by norm_num)
      (le_refl 0) (by norm_num)⟩⟩

/-- C10: the duplicate memory is bounded.  Starting from a state whose queue
respects the limit and whose set only holds queued texts, one
`_rememberSeen` call keeps the queue length and set size within the limit
(`_seenLimit = 25000`), keeps the set inside the queue, and when the limit
would be exceeded evicts exactly the oldest queued text. -/
theorem claim_C10_seen_bounded :
    seenLimit = 25000 ∧
    ∀ (limit : ℕ) (st : SeenState) (text : String),
      st.seenQueue.length ≤ limit →
      st.seenSet ⊆ st.seenQueue.toFinset →
      ((rememberSeen limit st text).seenQueue.length ≤ limit ∧
       (rememberSeen limit st text).seenSet.card ≤ limit ∧
       (rememberSeen limit st text).seenSet ⊆
         (rememberSeen limit st text).seenQueue.toFinset ∧
       (text ≠ "" → limit < st.seenQueue.length + 1 →
         (rememberSeen limit st text).seenQueue = (st.seenQueue ++ [text]).tail)) := by
  refine ⟨rfl, fun limit st text hlen hsub => ?_⟩
  have hcard_of_sub : ∀ (s : Finset String) (l : List String),
      s ⊆ l.toFinset → l.length ≤ limit → s.card ≤ limit := by
    intro s l hsl hll
    exact le_trans (Finset.card_le_card hsl) (le_trans l.toFinset_card_le hll)
  unfold rememberSeen
  by_cases htext : text = ""
  · simp only [htext, if_pos rfl]
    exact ⟨hlen, hcard_of_sub _ _ hsub hlen, hsub, fun h _ => absurd rfl h⟩
  · simp only [if_neg htext]
    have hq1sub : insert text st.seenSet ⊆ (st.seenQueue ++ [text]).toFinset := by
      intro x hx
      rw [List.toFinset_append]
      rcases Finset.mem_insert.mp hx with hx | hx
      · subst hx
        exact Finset.mem_union_right _ (by simp)
      · exact Finset.mem_union_left _ (hsub hx)
    by_cases hover : limit < (st.seenQueue ++ [text]).length
    · simp only [if_pos hover]
      have hlen2 : (st.seenQueue ++ [text]).length = st.seenQueue.length + 1 := by
        simp
    -- the queue after eviction has the old length
      have htail_len : (st.seenQueue ++ [text]).tail.length ≤ limit := by
        rw [List.length_tail, hlen2]
        omega
      have hcons : (st.seenQueue ++ [text]).headD "" :: (st.seenQueue ++ [text]).tail
          = st.seenQueue ++ [text] := by
        cases hq : st.seenQueue ++ [text] with
        | nil => simp at hq
        | cons a l => simp
      have hsub2 : (insert text st.seenSet).erase ((st.seenQueue ++ [text]).headD "") ⊆
          (st.seenQueue ++ [text]).tail.toFinset := by
        intro x hx
        have hxne : x ≠ (st.seenQueue ++ [text]).headD "" := (Finset.mem_erase.mp hx).1
        have hxin : x ∈ (st.seenQueue ++ [text]).toFinset :=
          hq1sub (Finset.mem_erase.mp hx).2
        rw [← hcons, List.toFinset_cons] at hxin
        exact (Finset.mem_insert.mp hxin).resolve_left hxne
      exact ⟨htail_len, hcard_of_sub _ _ hsub2 htail_len, hsub2, by simp⟩
    · simp only [if_neg hover]
      push_neg at hover
      refine ⟨hover, hcard_of_sub _ _ hq1sub hover, hq1sub, fun _ hc => ?_⟩
      simp at hover
      omega

theorem claim_C10_seen_bounded_witness :
    (SeenState.mk ∅ []).seenQueue.length ≤ seenLimit ∧
    (SeenState.mk ∅ []).seenSet ⊆ (SeenState.mk ∅ []).seenQueue.toFinset ∧
    ((rememberSeen seenLimit ⟨∅, []⟩ "gm").seenQueue.length ≤ seenLimit ∧
     (rememberSeen seenLimit ⟨∅, []⟩ "gm").seenSet.card ≤ seenLimit ∧
     (rememberSeen seenLimit ⟨∅, []⟩ "gm").seenSet ⊆
       (rememberSeen seenLimit ⟨∅, []⟩ "gm").seenQueue.toFinset ∧
     ("gm" ≠ "" → seenLimit < ([] : List String).length + 1 →
       (rememberSeen seenLimit ⟨∅, []⟩ "gm").seenQueue = (([] : List String) ++ ["gm"]).tail)) :=
  ⟨by simp, by simp,
   claim_C10_seen_bounded.2 seenLimit ⟨∅, []⟩ "gm" (by simp) (by simp)⟩

/-! ## C4: scheduler event ordering -/

theorem hasTerminal_append (tr : List TEv) (e : TEv) :
    hasTerminal (tr ++ [e]) = (hasTerminal tr || e.isTerminal) := by
  simp [hasTerminal]

theorem hasProg_append (tr : List TEv) (e : TEv) :
    hasProg (tr ++ [e]) = (hasProg tr || (e == TEv.progress)) := by
  induction tr with
  | nil => simp [hasProg]
  | cons y rest ih => simp [hasProg, ih, Bool.or_assoc]

theorem npat_append (tr : List TEv) (e : TEv) (he : e ≠ TEv.progress)
    (h : noProgAfterTerm tr = true) : noProgAfterTerm (tr ++ [e]) = true := by
  induction tr with
  | nil => simp [noProgAfterTerm, hasProg]
  | cons x rest ih =>
    simp only [noProgAfterTerm, List.cons_append, List.append_eq, Bool.and_eq_true,
      Bool.not_eq_true'] at h ⊢
    refine ⟨?_, ih h.2⟩
    rw [hasProg_append]
    have he2 : (e == TEv.progress) = false := by
      cases e <;> simp_all
    rw [he2, Bool.or_false]
    exact h.1

theorem npat_append_prog (tr : List TEv) (hterm : hasTerminal tr = false)
    (h : noProgAfterTerm tr = true) :
    noProgAfterTerm (tr ++ [TEv.progress]) = true := by
  induction tr with
  | nil => simp [noProgAfterTerm, TEv.isTerminal, hasProg]
  | cons x rest ih =>
    simp only [hasTerminal, List.any_cons, Bool.or_eq_false_iff] at hterm
    simp only [noProgAfterTerm, List.cons_append, List.append_eq, Bool.and_eq_true,
      Bool.not_eq_true'] at h ⊢
    exact ⟨by rw [hterm.1]; simp, ih hterm.2 h.2⟩

theorem neat_append (tr : List TEv) (e : TEv) (hterm : hasTerminal tr = false)
    (h : noEventAfterTerm tr = true) : noEventAfterTerm (tr ++ [e]) = true := by
  induction tr with
  | nil => simp [noEventAfterTerm]
  | cons x rest ih =>
    simp only [hasTerminal, List.any_cons, Bool.or_eq_false_iff] at hterm
    simp only [noEventAfterTerm, List.cons_append, List.append_eq, Bool.and_eq_true,
      Bool.not_eq_true'] at h ⊢
    exact ⟨by rw [hterm.1]; simp, ih hterm.2 h.2⟩

theorem emitTE_trace (st : TSt) (e : TEv) : (emitTE st e).trace = st.trace ++ [e] := rfl

theorem tschedNext_trace (st : TSt) : (tschedNext st).trace = st.trace := by
  unfold tschedNext
  split <;> rfl

theorem tschedNext_running (st : TSt) : (tschedNext st).running = st.running := by
  unfold tschedNext
  split <;> rfl

theorem stepMainPart_trace (cfg : SimCfg) (st : TSt) :
    (stepMainPart cfg st).trace = st.trace := by
  unfold stepMainPart
  split
  · rfl
  · split <;> rfl

theorem stepMainPart_running (cfg : SimCfg) (st : TSt) :
    (stepMainPart cfg st).running = true → st.running = true := by
  unfold stepMainPart
  split
  · exact fun h => h
  · split
    · exact fun h => h
    · intro h
      exact absurd h (by simp)

theorem inv_pair_of_noterm (Q : List TEv → Bool) (st' : TSt)
    (q1 : Q st'.trace = true) (q2 : hasTerminal st'.trace = false) :
    Q st'.trace = true ∧ (hasTerminal st'.trace = true → st'.running = false) :=
  ⟨q1, fun ht => Bool.noConfusion (q2.symm.trans ht)⟩

theorem stepBack_inv (Q : List TEv → Bool)
    (hQ : ∀ tr e, hasTerminal tr = false → Q tr = true → Q (tr ++ [e]) = true)
    (cfg : SimCfg) (st : TSt) (h1 : Q st.trace = true)
    (hterm : hasTerminal st.trace = false) :
    Q (stepBackspacePart cfg st).trace = true ∧
      hasTerminal (stepBackspacePart cfg st).trace = false := by
  simp only [stepBackspacePart]
  split
  · split
    · constructor
      · rw [emitTE_trace]
        exact hQ _ _ hterm h1
      · rw [emitTE_trace, hasTerminal_append]
        rw [show hasTerminal st.trace = false from hterm]
        rfl
    · rw [stepMainPart_trace]
      exact ⟨h1, hterm⟩
  · rw [stepMainPart_trace]
    exact ⟨h1, hterm⟩

theorem stepGhost_inv (Q : List TEv → Bool)
    (hQ : ∀ tr e, hasTerminal tr = false → Q tr = true → Q (tr ++ [e]) = true)
    (cfg : SimCfg) (st : TSt) (h1 : Q st.trace = true)
    (hterm : hasTerminal st.trace = false) :
    Q (stepGhostTaken cfg st).trace = true ∧
      hasTerminal (stepGhostTaken cfg st).trace = false := by
  have h1' : Q (st.trace ++ [TEv.progress]) = true := hQ _ _ hterm h1
  have hterm' : hasTerminal (st.trace ++ [TEv.progress]) = false := by
    rw [hasTerminal_append, hterm]
    rfl
  simp only [stepGhostTaken]
  split
  · constructor
    · rw [tschedNext_trace]
      exact h1'
    · rw [tschedNext_trace]
      exact hterm'
  · exact stepBack_inv Q hQ cfg _ h1' hterm'

theorem stepOnce_inv (Q : List TEv → Bool)
    (hQ : ∀ tr e, hasTerminal tr = false → Q tr = true → Q (tr ++ [e]) = true)
    (cfg : SimCfg) (st : TSt) (h1 : Q st.trace = true)
    (h2 : hasTerminal st.trace = true → st.running = false) :
    Q (stepOnce cfg st).trace = true ∧
      (hasTerminal (stepOnce cfg st).trace = true → (stepOnce cfg st).running = false) := by
  simp only [stepOnce]
  by_cases hr : st.running = false
  · rw [if_pos hr]
    exact ⟨h1, fun _ => hr⟩
  · rw [if_neg hr]
    have hterm : hasTerminal st.trace = false := by
      cases hht : hasTerminal st.trace
      · rfl
      · exact absurd (h2 hht) hr
    by_cases hp : st.paused = true
    · rw [if_pos hp]
      constructor
      · rw [emitTE_trace, tschedNext_trace]
        exact hQ _ _ hterm h1
      · rw [emitTE_trace, tschedNext_trace, hasTerminal_append, hterm]
        intro ht
        exact Bool.noConfusion ht
    · rw [if_neg hp]
      by_cases hab : st.abandoned = true
      · rw [if_pos hab]
        constructor
        · rw [emitTE_trace]
          exact hQ _ _ hterm h1
        · exact fun _ => rfl
      · rw [if_neg hab]
        by_cases hg : cfg.allowGhost = true
        · rw [if_pos hg]
          split
          · have hgi := stepGhost_inv Q hQ cfg { st with rng := (rngNext st.rng).1 } h1 hterm
            exact ⟨hgi.1, fun ht => Bool.noConfusion (hgi.2.symm.trans ht)⟩
          · have hbi := stepBack_inv Q hQ cfg { st with rng := (rngNext st.rng).1 } h1 hterm
            exact ⟨hbi.1, fun ht => Bool.noConfusion (hbi.2.symm.trans ht)⟩
        · rw [if_neg hg]
          have hbi := stepBack_inv Q hQ cfg st h1 hterm
          exact ⟨hbi.1, fun ht => Bool.noConfusion (hbi.2.symm.trans ht)⟩

theorem firePCB_inv (Q : List TEv → Bool)
    (hQ : ∀ tr e, hasTerminal tr = false → Q tr = true → Q (tr ++ [e]) = true)
    (cfg : SimCfg) (st : TSt) (cb : PCB) (h1 : Q st.trace = true)
    (h2 : hasTerminal st.trace = true → st.running = false) :
    Q (firePCB cfg st cb).trace = true ∧
      (hasTerminal (firePCB cfg st cb).trace = true →
        (firePCB cfg st cb).running = false) := by
  cases cb with
  | step => exact stepOnce_inv Q hQ cfg st h1 h2
  | schedN =>
    simp only [firePCB]
    constructor
    · rw [tschedNext_trace]
      exact h1
    · rw [tschedNext_trace, tschedNext_running]
      exact h2
  | charT ch =>
    simp only [firePCB]
    by_cases hc : st.running = false ∨ st.paused = true
    · rw [if_pos hc]
      constructor
      · rw [tschedNext_trace]
        exact h1
      · rw [tschedNext_trace, tschedNext_running]
        exact h2
    · rw [if_neg hc]
      have hr : ¬ st.running = false := fun h => hc (Or.inl h)
      have hterm : hasTerminal st.trace = false := by
        cases hht : hasTerminal st.trace
        · rfl
        · exact absurd (h2 hht) hr
      have h1' : Q (st.trace ++ [TEv.progress]) = true := hQ _ _ hterm h1
      have hterm' : hasTerminal (st.trace ++ [TEv.progress]) = false := by
        rw [hasTerminal_append, hterm]
        rfl
      split
      · split
        · exact inv_pair_of_noterm Q _ h1' hterm'
        · constructor
          · rw [tschedNext_trace]
            exact h1'
          · rw [tschedNext_trace]
            intro ht
            exact Bool.noConfusion (hterm'.symm.trans ht)
      · constructor
        · rw [tschedNext_trace]
          exact h1'
        · rw [tschedNext_trace]
          intro ht
          exact Bool.noConfusion (hterm'.symm.trans ht)
  | retype deleted rIdx =>
    simp only [firePCB]
    by_cases hr : st.running = false
    · rw [if_pos hr]
      exact ⟨h1, h2⟩
    · rw [if_neg hr]
      have hterm : hasTerminal st.trace = false := by
        cases hht : hasTerminal st.trace
        · rfl
        · exact absurd (h2 hht) hr
      split
      · constructor
        · rw [tschedNext_trace]
          exact h1
        · rw [tschedNext_trace, tschedNext_running]
          exact h2
      · have h1' : Q (st.trace ++ [TEv.progress]) = true := hQ _ _ hterm h1
        have hterm' : hasTerminal (st.trace ++ [TEv.progress]) = false := by
          rw [hasTerminal_append, hterm]
          rfl
        exact inv_pair_of_noterm Q _ h1' hterm'
  | ghostT =>
    exact ⟨h1, fun ht => h2 ht⟩
  | finalT =>
    simp only [firePCB]
    by_cases hr : st.running = false
    · rw [if_pos hr]
      exact ⟨h1, h2⟩
    · rw [if_neg hr]
      have hterm : hasTerminal st.trace = false := by
        cases hht : hasTerminal st.trace
        · rfl
        · exact absurd (h2 hht) hr
      by_cases hg : cfg.allowGhost = true
      · rw [if_pos hg]
        split
        · exact ⟨by rw [emitTE_trace]; exact hQ _ _ hterm h1, fun _ => rfl⟩
        · exact ⟨by rw [emitTE_trace]; exact hQ _ _ hterm h1, fun _ => rfl⟩
      · rw [if_neg hg]
        exact ⟨by rw [emitTE_trace]; exact hQ _ _ hterm h1, fun _ => rfl⟩
  | intrT =>
    simp only [firePCB]
    by_cases hr : st.running = false
    · rw [if_pos hr]
      exact ⟨h1, h2⟩
    · rw [if_neg hr]
      have hterm : hasTerminal st.trace = false := by
        cases hht : hasTerminal st.trace
        · rfl
        · exact absurd (h2 hht) hr
      exact ⟨by rw [emitTE_trace]; exact hQ _ _ hterm h1, fun _ => rfl⟩

theorem fireAct_inv (Q : List TEv → Bool)
    (hQ : ∀ tr e, hasTerminal tr = false → Q tr = true → Q (tr ++ [e]) = true)
    (cfg : SimCfg) (st : TSt) (k : ℕ) (h1 : Q st.trace = true)
    (h2 : hasTerminal st.trace = true → st.running = false) :
    Q (applyAct cfg st (TAct.fire k)).trace = true ∧
      (hasTerminal (applyAct cfg st (TAct.fire k)).trace = true →
        (applyAct cfg st (TAct.fire k)).running = false) := by
  simp only [applyAct]
  cases heq : st.pending.get? k with
  | none => exact ⟨h1, h2⟩
  | some cb => exact firePCB_inv Q hQ cfg _ cb h1 h2

/-- `noProgAfterTerm` survives appending any event to a terminal-free
trace. -/
theorem npat_hQ (tr : List TEv) (e : TEv) (hterm : hasTerminal tr = false)
    (h : noProgAfterTerm tr = true) : noProgAfterTerm (tr ++ [e]) = true := by
  by_cases hp : e = TEv.progress
  · subst hp
    exact npat_append_prog tr hterm h
  · exact npat_append tr e hp h

theorem applyAct_npat (cfg : SimCfg) (st : TSt) (a : TAct)
    (h1 : noProgAfterTerm st.trace = true)
    (h2 : hasTerminal st.trace = true → st.running = false) :
    noProgAfterTerm (applyAct cfg st a).trace = true ∧
      (hasTerminal (applyAct cfg st a).trace = true →
        (applyAct cfg st a).running = false) := by
  cases a with
  | fire k => exact fireAct_inv noProgAfterTerm npat_hQ cfg st k h1 h2
  | cancel =>
    simp only [applyAct]
    exact ⟨by rw [emitTE_trace]; exact npat_append _ _ (by simp) h1, fun _ => rfl⟩
  | interrupt =>
    simp only [applyAct]
    split
    · exact ⟨h1, h2⟩
    · constructor
      · rw [emitTE_trace]
        exact npat_append _ _ (by simp) h1
      · rw [emitTE_trace, hasTerminal_append]
        intro ht
        rw [show TEv.isTerminal TEv.pause = false from rfl, Bool.or_false] at ht
        exact h2 ht
  | forceSend =>
    simp only [applyAct]
    split
    · exact ⟨h1, h2⟩
    · exact ⟨by rw [emitTE_trace]; exact npat_append _ _ (by simp) h1, fun _ => rfl⟩
  | pauseCtl flag =>
    simp only [applyAct]
    constructor
    · rw [emitTE_trace]
      exact npat_append _ _ (by simp) h1
    · rw [emitTE_trace, hasTerminal_append]
      intro ht
      rw [show TEv.isTerminal TEv.pause = false from rfl, Bool.or_false] at ht
      exact h2 ht

theorem stepBack_prefix (cfg : SimCfg) (st : TSt) (tr : List TEv)
    (h : st.trace = tr) : tr <+: (stepBackspacePart cfg st).trace := by
  subst h
  simp only [stepBackspacePart]
  split
  · split
    · rw [emitTE_trace]
      exact List.prefix_append _ _
    · rw [stepMainPart_trace]
  · rw [stepMainPart_trace]

theorem stepGhost_prefix (cfg : SimCfg) (st : TSt) (tr : List TEv)
    (h : st.trace = tr) : tr <+: (stepGhostTaken cfg st).trace := by
  subst h
  simp only [stepGhostTaken]
  split
  · rw [tschedNext_trace]
    show st.trace <+: st.trace ++ [TEv.progress]
    exact List.prefix_append _ _
  · refine List.IsPrefix.trans (show st.trace <+: st.trace ++ [TEv.progress] from
      List.prefix_append _ _) ?_
    exact stepBack_prefix cfg _ _ rfl

theorem stepOnce_prefix (cfg : SimCfg) (st : TSt) :
    st.trace <+: (stepOnce cfg st).trace := by
  simp only [stepOnce]
  split
  · exact List.prefix_rfl
  · split
    · rw [emitTE_trace, tschedNext_trace]
      exact List.prefix_append _ _
    · split
      · rw [emitTE_trace]
        exact List.prefix_append _ _
      · split
        · split
          · exact stepGhost_prefix cfg _ _ rfl
          · exact stepBack_prefix cfg _ _ rfl
        · exact stepBack_prefix cfg _ _ rfl

theorem firePCB_prefix (cfg : SimCfg) (st : TSt) (cb : PCB) :
    st.trace <+: (firePCB cfg st cb).trace := by
  cases cb with
  | step => exact stepOnce_prefix cfg st
  | schedN =>
    simp only [firePCB]
    rw [tschedNext_trace]
  | charT ch =>
    simp only [firePCB]
    split
    · rw [tschedNext_trace]
    · split
      · split
        · exact List.prefix_append _ _
        · rw [tschedNext_trace]
          exact List.prefix_append _ _
      · rw [tschedNext_trace]
        exact List.prefix_append _ _
  | retype deleted rIdx =>
    simp only [firePCB]
    split
    · exact List.prefix_rfl
    · split
      · rw [tschedNext_trace]
      · exact List.prefix_append _ _
  | ghostT => exact List.prefix_rfl
  | finalT =>
    simp only [firePCB]
    split
    · exact List.prefix_rfl
    · split
      · split
        · rw [emitTE_trace]
          exact List.prefix_append _ _
        · rw [emitTE_trace]
          exact List.prefix_append _ _
      · rw [emitTE_trace]
        exact List.prefix_append _ _
  | intrT =>
    simp only [firePCB]
    split
    · exact List.prefix_rfl
    · rw [emitTE_trace]
      exact List.prefix_append _ _

theorem applyAct_prefix (cfg : SimCfg) (st : TSt) (a : TAct) :
    st.trace <+: (applyAct cfg st a).trace := by
  cases a with
  | fire k =>
    simp only [applyAct]
    cases heq : st.pending.get? k with
    | none => exact List.prefix_rfl
    | some cb => exact firePCB_prefix cfg { st with pending := st.pending.eraseIdx k } cb
  | cancel =>
    simp only [applyAct]
    rw [emitTE_trace]
    exact List.prefix_append _ _
  | interrupt =>
    simp only [applyAct]
    split
    · exact List.prefix_rfl
    · rw [emitTE_trace]
      exact List.prefix_append _ _
  | forceSend =>
    simp only [applyAct]
    split
    · exact List.prefix_rfl
    · rw [emitTE_trace]
      exact List.prefix_append _ _
  | pauseCtl flag =>
    simp only [applyAct]
    rw [emitTE_trace]
    exact List.prefix_append _ _

theorem foldAct_head (cfg : SimCfg) :
    ∀ (acts : List TAct) (st : TSt), st.trace.head? = some TEv.start →
      ((acts.foldl (applyAct cfg) st).trace.head? = some TEv.start) := by
  intro acts
  induction acts with
  | nil => exact fun st h => h
  | cons a rest ih =>
    intro st h
    refine ih _ ?_
    obtain ⟨ext, hext⟩ := applyAct_prefix cfg st a
    rw [← hext]
    cases htr : st.trace with
    | nil => rw [htr] at h; exact absurd h (by simp)
    | cons x t =>
      rw [htr] at h
      simp only [List.head?_cons, Option.some.injEq] at h
      simp [h]

theorem foldAct_inv (Q : List TEv → Bool)
    (hQ : ∀ tr e, hasTerminal tr = false → Q tr = true → Q (tr ++ [e]) = true)
    (cfg : SimCfg)
    (hctrl : ∀ st a, Q st.trace = true →
      (hasTerminal st.trace = true → st.running = false) →
      Q (applyAct cfg st a).trace = true ∧
        (hasTerminal (applyAct cfg st a).trace = true →
          (applyAct cfg st a).running = false)) :
    ∀ (acts : List TAct) (st : TSt), Q st.trace = true →
      (hasTerminal st.trace = true → st.running = false) →
      Q ((acts.foldl (applyAct cfg) st)).trace = true ∧
        (hasTerminal ((acts.foldl (applyAct cfg) st)).trace = true →
          ((acts.foldl (applyAct cfg) st)).running = false) := by
  intro acts
  induction acts with
  | nil => exact fun st h1 h2 => ⟨h1, h2⟩
  | cons a rest ih =>
    intro st h1 h2
    obtain ⟨h1', h2'⟩ := hctrl st a h1 h2
    exact ih _ h1' h2'

theorem foldAct_inv_fire (Q : List TEv → Bool)
    (hQ : ∀ tr e, hasTerminal tr = false → Q tr = true → Q (tr ++ [e]) = true)
    (cfg : SimCfg) :
    ∀ (acts : List TAct) (st : TSt), acts.all TAct.isFire = true →
      Q st.trace = true →
      (hasTerminal st.trace = true → st.running = false) →
      Q ((acts.foldl (applyAct cfg) st)).trace = true ∧
        (hasTerminal ((acts.foldl (applyAct cfg) st)).trace = true →
          ((acts.foldl (applyAct cfg) st)).running = false) := by
  intro acts
  induction acts with
  | nil => exact fun st _ h1 h2 => ⟨h1, h2⟩
  | cons a rest ih =>
    intro st hall h1 h2
    simp only [List.all_cons, Bool.and_eq_true] at hall
    cases a with
    | fire k =>
      obtain ⟨h1', h2'⟩ := fireAct_inv Q hQ cfg st k h1 h2
      exact ih _ hall.2 h1' h2'
    | cancel => exact absurd hall.1 (by simp [TAct.isFire])
    | interrupt => exact absurd hall.1 (by simp [TAct.isFire])
    | forceSend => exact absurd hall.1 (by simp [TAct.isFire])
    | pauseCtl flag => exact absurd hall.1 (by simp [TAct.isFire])

theorem simStart_trace (cfg : SimCfg) (seed : ℕ) :
    (simStart cfg seed).trace = [TEv.start] := by
  unfold simStart
  rw [tschedNext_trace]

/-! ## C4: copy-paste branch lemmas -/

theorem cpRun_head_noprog :
    ∀ (acts : List CPAct) (st : CPSt), st.trace.head? = some TEv.start →
      hasProg st.trace = false →
      ((acts.foldl applyCP st).trace.head? = some TEv.start ∧
        hasProg ((acts.foldl applyCP st)).trace = false) := by
  intro acts
  induction acts with
  | nil => exact fun st h1 h2 => ⟨h1, h2⟩
  | cons a rest ih =>
    intro st h1 h2
    have hstep : (applyCP st a).trace = st.trace ∨
        (applyCP st a).trace = st.trace ++ [TEv.send] := by
      cases a with
      | fireBurst =>
        simp only [applyCP]
        split
        · exact Or.inr rfl
        · exact Or.inl rfl
      | cancel => exact Or.inl rfl
      | interrupt => exact Or.inl rfl
      | forceSend => exact Or.inr rfl
    refine ih _ ?_ ?_
    · rcases hstep with h | h <;> rw [h]
      · exact h1
      · cases htr : st.trace with
        | nil => rw [htr] at h1; exact absurd h1 (by simp)
        | cons x t =>
          rw [htr] at h1
          simp only [List.head?_cons, Option.some.injEq] at h1
          simp [h1]
    · rcases hstep with h | h <;> rw [h]
      · exact h2
      · rw [hasProg_append, h2]
        rfl

theorem cpRun_neat :
    ∀ (acts : List CPAct) (st : CPSt), ¬ CPAct.forceSend ∈ acts →
      noEventAfterTerm st.trace = true →
      (st.pendingBurst = true → hasTerminal st.trace = false) →
      (noEventAfterTerm ((acts.foldl applyCP st)).trace = true) := by
  intro acts
  induction acts with
  | nil => exact fun st _ h1 _ => h1
  | cons a rest ih =>
    intro st hmem h1 h2
    have hmem' : ¬ CPAct.forceSend ∈ rest := fun h => hmem (List.mem_cons_of_mem _ h)
    cases a with
    | fireBurst =>
      rw [List.foldl_cons]
      simp only [applyCP]
      by_cases hpb : st.pendingBurst = true
      · rw [if_pos hpb]
        refine ih _ hmem' (neat_append _ _ (h2 hpb) h1) ?_
        intro h
        exact absurd h Bool.false_ne_true
      · rw [if_neg hpb]
        exact ih _ hmem' h1 h2
    | cancel => exact ih _ hmem' h1 h2
    | interrupt => exact ih _ hmem' h1 h2
    | forceSend => exact absurd (List.mem_cons_self _ _) hmem

/-- C4: the claim that every session emits `start` first, exactly one
terminal event (`send`/`abandoned`/`stop`), that terminal last, is false
once the controller is involved: `forceSend()` emits `send` (setting
`running = false`), yet a subsequent `cancel()` unconditionally emits a
second terminal `stop` — the trace is `[start, send, stop]`. -/
theorem claim_C4_counterexample :
    ¬ (∀ acts : List TAct, goodTrace (simRun c4cfg 1 acts).trace = true) := by
  intro h
  exact absurd (h [TAct.forceSend, TAct.cancel]) (by decide)

/-- C4 amended: for every session of the main branch, under any
interleaving of timer firings and controller calls, `start` is the first
event and no `progress` event is ever emitted after a terminal event (in
particular not after cancellation, since `stop` is terminal); when only
the session's own timers run (no controller calls), there is at most one
terminal event and no event of any kind follows it.  On the copy-paste
fast path `start` is first, no `progress` is ever emitted, and absent
`forceSend()` (whose copy-paste variant is unguarded) at most one
terminal `send` is emitted, last; `cancel()`/`interrupt()` are no-ops
there and do not stop the scheduled burst send. -/
theorem claim_C4_amended (cfg : SimCfg) (seed : ℕ) (acts : List TAct) :
    (simRun cfg seed acts).trace.head? = some TEv.start ∧
    noProgAfterTerm (simRun cfg seed acts).trace = true ∧
    (acts.all TAct.isFire = true →
      noEventAfterTerm (simRun cfg seed acts).trace = true) ∧
    ∀ cpacts : List CPAct,
      (cpRun cpacts).trace.head? = some TEv.start ∧
      hasProg (cpRun cpacts).trace = false ∧
      (¬ CPAct.forceSend ∈ cpacts →
        noEventAfterTerm (cpRun cpacts).trace = true) := by
  have hstart : (simStart cfg seed).trace = [TEv.start] := simStart_trace cfg seed
  have h1 : noProgAfterTerm (simStart cfg seed).trace = true := by
    rw [hstart]
    rfl
  have h2 : hasTerminal (simStart cfg seed).trace = true →
      (simStart cfg seed).running = false := by
    rw [hstart]
    intro ht
    exact absurd ht (by decide)
  refine ⟨?_, ?_, ?_, ?_⟩
  · exact foldAct_head cfg acts _ (by rw [hstart]; rfl)
  · exact (foldAct_inv noProgAfterTerm npat_hQ cfg (applyAct_npat cfg) acts _ h1 h2).1
  · intro hall
    have h1' : noEventAfterTerm (simStart cfg seed).trace = true := by
      rw [hstart]
      rfl
    exact (foldAct_inv_fire noEventAfterTerm neat_append cfg acts _ hall h1' h2).1
  · intro cpacts
    have hcp := cpRun_head_noprog cpacts cpStart rfl rfl
    refine ⟨hcp.1, hcp.2, fun hmem => ?_⟩
    exact cpRun_neat cpacts cpStart hmem rfl (fun _ => rfl)

theorem claim_C4_amended_witness :
    (simRun c4cfg 1 [TAct.fire 0]).trace.head? = some TEv.start ∧
    noProgAfterTerm (simRun c4cfg 1 [TAct.fire 0]).trace = true ∧
    ([TAct.fire 0].all TAct.isFire = true →
      noEventAfterTerm (simRun c4cfg 1 [TAct.fire 0]).trace = true) ∧
    ∀ cpacts : List CPAct,
      (cpRun cpacts).trace.head? = some TEv.start ∧
      hasProg (cpRun cpacts).trace = false ∧
      (¬ CPAct.forceSend ∈ cpacts →
        noEventAfterTerm (cpRun cpacts).trace = true) :=
  claim_C4_amended c4cfg 1 [TAct.fire 0]

/-! ## C5: display-name uniqueness -/

theorem euLoop_not_mem (base : String) (used : List String) :
    ∀ (fuel i rs : ℕ) (c : String × ℕ),
      euLoop base used fuel i rs = some c → ¬ c.1 ∈ used := by
  intro fuel
  induction fuel with
  | zero => intro i rs c h; simp [euLoop] at h
  | succ k ih =>
    intro i rs c h
    unfold euLoop at h
    by_cases hm : (spSuffixCandidate base i rs).1 ∈ used
    · rw [if_pos hm] at h
      exact ih _ _ _ h
    · rw [if_neg hm] at h
      cases h
      exact hm

theorem ensureUnique_spec (dn : String) (used : List String) (rs : ℕ) (now : ℤ)
    (hfb : (ensureUnique dn used rs now).2.2.2 = false) :
    ¬ (ensureUnique dn used rs now).1 ∈ used ∧
      (ensureUnique dn used rs now).2.1 = (ensureUnique dn used rs now).1 :: used := by
  unfold ensureUnique at *
  by_cases h : dn ∈ used
  · rw [if_pos h] at *
    cases heq : euLoop (spSanitizeBase dn) used 9999 1 rs with
    | none =>
      rw [heq] at hfb
      exact Bool.noConfusion (show true = false from hfb)
    | some c => exact ⟨euLoop_not_mem _ _ _ _ _ _ heq, rfl⟩
  · rw [if_neg h] at *
    exact ⟨h, rfl⟩

theorem ensureUnique_used_mono (dn : String) (used : List String) (rs : ℕ) (now : ℤ)
    {n : String} (hn : n ∈ used) : n ∈ (ensureUnique dn used rs now).2.1 := by
  unfold ensureUnique
  by_cases h : dn ∈ used
  · rw [if_pos h]
    cases heq : euLoop (spSanitizeBase dn) used 9999 1 rs with
    | none => exact List.mem_cons_of_mem _ hn
    | some c => exact List.mem_cons_of_mem _ hn
  · rw [if_neg h]
    exact List.mem_cons_of_mem _ hn

theorem spStep_admin (sb : ℕ) (incA incM allowReal : Bool) (mix : ℚ)
    (styles : List String) (profiles : String → Option SPProfile) (now : ℤ)
    (st : SPState) (i : ℕ) (hA : i = 0 ∧ incA = true) :
    spNames (spStep sb incA incM allowReal mix styles profiles now st i) =
        spNames st ++ [FIXED_ADMIN_NAME] ∧
      (spStep sb incA incM allowReal mix styles profiles now st i).used = st.used ∧
      (spStep sb incA incM allowReal mix styles profiles now st i).fellBack =
        st.fellBack := by
  unfold spStep
  rw [if_pos hA]
  exact ⟨by simp [spNames], rfl, rfl⟩

theorem spStep_mod (sb : ℕ) (incA incM allowReal : Bool) (mix : ℚ)
    (styles : List String) (profiles : String → Option SPProfile) (now : ℤ)
    (st : SPState) (i : ℕ) (hA : ¬ (i = 0 ∧ incA = true)) (hM : i = 1 ∧ incM = true) :
    spNames (spStep sb incA incM allowReal mix styles profiles now st i) =
        spNames st ++ [FIXED_MOD_NAME] ∧
      (spStep sb incA incM allowReal mix styles profiles now st i).used = st.used ∧
      (spStep sb incA incM allowReal mix styles profiles now st i).fellBack =
        st.fellBack := by
  unfold spStep
  rw [if_neg hA, if_pos hM]
  exact ⟨by simp [spNames], rfl, rfl⟩

theorem spStep_member (sb : ℕ) (incA incM allowReal : Bool) (mix : ℚ)
    (styles : List String) (profiles : String → Option SPProfile) (now : ℤ)
    (st : SPState) (i : ℕ) (hA : ¬ (i = 0 ∧ incA = true)) (hM : ¬ (i = 1 ∧ incM = true)) :
    spNames (spStep sb incA incM allowReal mix styles profiles now st i) =
        spNames st ++
          [(ensureUnique (spDrawName st.gs).1 st.used (xorshift32Init (sb + i * 97))
            now).1] ∧
      (spStep sb incA incM allowReal mix styles profiles now st i).used =
        (ensureUnique (spDrawName st.gs).1 st.used (xorshift32Init (sb + i * 97))
          now).2.1 ∧
      (spStep sb incA incM allowReal mix styles profiles now st i).fellBack =
        (st.fellBack ||
          (ensureUnique (spDrawName st.gs).1 st.used (xorshift32Init (sb + i * 97))
            now).2.2.2) := by
  unfold spStep
  rw [if_neg hA, if_neg hM]
  exact ⟨by simp [spNames], rfl, rfl⟩

theorem spRun_succ (sb : ℕ) (incA incM allowReal : Bool) (mix : ℚ)
    (styles : List String) (profiles : String → Option SPProfile) (now : ℤ) (k : ℕ) :
    spRun sb incA incM allowReal mix styles profiles now (k + 1) =
      spStep sb incA incM allowReal mix styles profiles now
        (spRun sb incA incM allowReal mix styles profiles now k) k := by
  unfold spRun
  rw [List.range_succ, List.foldl_append]
  rfl

theorem spRun_inv (sb : ℕ) (incA incM allowReal : Bool) (mix : ℚ)
    (styles : List String) (profiles : String → Option SPProfile) (now : ℤ) :
    ∀ k,
      ((spRun sb incA incM allowReal mix styles profiles now k).fellBack = false →
        (spNames (spRun sb incA incM allowReal mix styles profiles now k)).Nodup) ∧
      ((spRun sb incA incM allowReal mix styles profiles now k).fellBack = false →
        ∀ n ∈ spNames (spRun sb incA incM allowReal mix styles profiles now k),
          n ∈ (spRun sb incA incM allowReal mix styles profiles now k).used) ∧
      (incM = true → k ≤ 1 →
        FIXED_MOD_NAME ∈ (spRun sb incA incM allowReal mix styles profiles now k).used ∧
        ((spRun sb incA incM allowReal mix styles profiles now k).fellBack = false →
          ¬ FIXED_MOD_NAME ∈
            spNames (spRun sb incA incM allowReal mix styles profiles now k))) ∧
      (k = 0 →
        spRun sb incA incM allowReal mix styles profiles now k = spInit sb incA incM) := by
  intro k
  induction k with
  | zero =>
    refine ⟨fun _ => by simp [spRun, spNames, spInit], fun _ => by simp [spRun, spNames, spInit],
      fun hM _ => ⟨?_, fun _ => by simp [spRun, spNames, spInit]⟩, fun _ => rfl⟩
    show FIXED_MOD_NAME ∈ (spInit sb incA incM).used
    unfold spInit
    rw [hM]
    cases incA <;> simp
  | succ k ih =>
    obtain ⟨ihN, ihU, ihM, ih0⟩ := ih
    rw [spRun_succ]
    by_cases hA : k = 0 ∧ incA = true
    · obtain ⟨hnm, hus, hfb⟩ := spStep_admin sb incA incM allowReal mix styles profiles now _ k hA
      have h0 := ih0 hA.1
      refine ⟨?_, ?_, ?_, by omega⟩
      · intro _
        rw [hnm, h0]
        simp [spNames, spInit]
      · intro _ n hn
        rw [hnm, h0] at hn
        simp only [spNames, spInit, List.map_nil, List.nil_append, List.mem_singleton] at hn
        rw [hus, h0]
        subst hn
        unfold spInit
        rw [hA.2]
        simp
      · intro hMt _
        constructor
        · rw [hus, h0]
          unfold spInit
          rw [hMt]
          cases incA <;> simp
        · intro _
          rw [hnm, h0]
          simp [spNames, spInit]
          decide
    · by_cases hMb : k = 1 ∧ incM = true
      · obtain ⟨hnm, hus, hfb⟩ :=
          spStep_mod sb incA incM allowReal mix styles profiles now _ k hA hMb
        refine ⟨?_, ?_, fun _ h2 => by omega, by omega⟩
        · intro hf
          rw [hfb] at hf
          rw [hnm]
          have hnd := ihN hf
          have hmod := (ihM hMb.2 (by omega)).2 hf
          simp only [List.nodup_append, List.nodup_cons, List.nodup_nil, and_true,
            List.not_mem_nil, not_false_iff, List.disjoint_singleton]
          exact ⟨hnd, by simpa using fun hmem => hmod hmem⟩
        · intro hf n hn
          rw [hfb] at hf
          rw [hnm] at hn
          rw [hus]
          rcases List.mem_append.mp hn with h | h
          · exact ihU hf n h
          · rw [List.mem_singleton.mp h]
            exact (ihM hMb.2 (by omega)).1
      · obtain ⟨hnm, hus, hfb⟩ :=
          spStep_member sb incA incM allowReal mix styles profiles now _ k hA hMb
        refine ⟨?_, ?_, ?_, by omega⟩
        · intro hf
          rw [hfb, Bool.or_eq_false_iff] at hf
          obtain ⟨hf1, hf2⟩ := hf
          obtain ⟨hnot, _⟩ := ensureUnique_spec _ _ _ _ hf2
          rw [hnm]
          simp only [List.nodup_append, List.nodup_cons, List.nodup_nil, and_true,
            List.not_mem_nil, not_false_iff, List.disjoint_singleton]
          exact ⟨ihN hf1, trivial, fun hmem => hnot (ihU hf1 _ hmem)⟩
        · intro hf n hn
          rw [hfb, Bool.or_eq_false_iff] at hf
          obtain ⟨hf1, hf2⟩ := hf
          obtain ⟨hnot, heq⟩ := ensureUnique_spec _ _ _ _ hf2
          rw [hus, heq]
          rw [hnm] at hn
          rcases List.mem_append.mp hn with h | h
          · exact List.mem_cons_of_mem _ (ihU hf1 n h)
          · rw [List.mem_singleton.mp h]
            exact List.mem_cons_self _ _
        · intro hMt hk1
          have hk0 : k = 0 := by
            rcases Nat.lt_or_ge k 1 with h | h
            · omega
            · exfalso
              rcases Nat.lt_or_ge k 2 with h2 | h2
              · exact hMb ⟨by omega, hMt⟩
              · omega
          have hmod := ihM hMt (by omega)
          constructor
          · rw [hus]
            exact ensureUnique_used_mono _ _ _ _ hmod.1
          · intro hf
            rw [hfb, Bool.or_eq_false_iff] at hf
            obtain ⟨hf1, hf2⟩ := hf
            obtain ⟨hnot, _⟩ := ensureUnique_spec _ _ _ _ hf2
            rw [hnm]
            intro hmem
            rcases List.mem_append.mp hmem with h | h
            · exact hmod.2 hf1 h
            · exact hnot (List.mem_singleton.mp h ▸ hmod.1)

/-- C5: the claim that no two actors of one generated population share a
display name is false for `PeopleStore.init`, which pushes `createPerson`
outputs with no deduplication of any kind: with seed `2084` the first two
generated people both pick the handle "OnchainGeek". -/
theorem claim_C5_counterexample :
    ¬ (((peopleStoreInit 2084 0 2 none 0).map PSPerson.name).Nodup) := by decide

/-- C5 amended: `SyntheticPeople.generatePool` does keep display names
pairwise distinct — the fixed admin/mod names are reserved up front and
every generated name passes through `ensureUnique` against the shared
`usedNames` set — provided the 9999-candidate `Date.now()` fallback
(which skips the membership check) never fires.  `PeopleStore.init`
applies no deduplication at all and can repeat names. -/
theorem claim_C5_amended (size sb : ℕ) (incA incM allowReal : Bool) (mix : ℚ)
    (styles : List String) (profiles : String → Option SPProfile) (now : ℤ)
    (hfb : (spGeneratePool size sb incA incM allowReal mix styles profiles
      now).fellBack = false) :
    (spNames (spGeneratePool size sb incA incM allowReal mix styles profiles
      now)).Nodup := by
  unfold spGeneratePool at *
  exact (spRun_inv (if sb = 0 then 2026 else sb) incA incM allowReal mix styles
    profiles now (clampNat size 3 500000)).1 hfb

theorem claim_C5_amended_witness :
    (spGeneratePool 3 2026 true true true (6/10) SP_STYLES (fun _ => none)
      0).fellBack = false ∧
    (spNames (spGeneratePool 3 2026 true true true (6/10) SP_STYLES (fun _ => none)
      0)).Nodup :=
  ⟨by decide,
   claim_C5_amended 3 2026 true true true (6/10) SP_STYLES (fun _ => none) 0
     (by decide)⟩

end Abrox
